import Mathlib

/-!
# Command-line glue of llama.cpp (`utils.cpp`)

A shallow embedding of `gpt_params_parse`, `gpt_print_usage`,
`gpt_random_prompt` and `llama_tokenize`, followed by theorems about them.

Conventions of the embedding:

* `std::string` and `char *` arguments are Lean `String`s; `argv` is a
  `List String` whose head is `argv[0]`, and `argv[argc]` is the null pointer.
* `int32_t` fields are `Int`s; conversions that can wrap are written with an
  explicit reduction modulo `2^32`.
* `float` values are kept abstract (`f32`): `std::stof` and the `%.1f`
  conversion of `printf` are parameters of the environment.
* Everything the parser reads from outside its arguments (the files it opens,
  the hardware concurrency, the platform) is a field of `Env`.
* A call of the parser ends in an `Outcome`: it returns, the process exits,
  an exception leaves the function, or the behaviour is undefined.
-/

namespace LlamaUtils

/-! ## Data model -/

/-- Exceptions of the numeric conversions `std::stoi` and `std::stof`. -/
inductive Exception
  | invalid_argument
  | out_of_range
  deriving DecidableEq, Repr

/-- A `float` value, kept abstract: only its bit pattern is recorded. -/
structure f32 where
  bits : Nat
  deriving DecidableEq, Repr

/-- Modelled from the spec: the configuration record `gpt_params` is declared in
`utils.h`, which is not among the sources; its fields are the ones `utils.cpp`
reads and writes, with the types the conversions applied to them give
(`std::stoi` for `int32_t`, `std::stof` for `float`, `std::string`,
`std::vector<std::string>`, `bool`). -/
structure gpt_params where
  seed : Int
  n_threads : Int
  n_predict : Int
  repeat_last_n : Int
  n_parts : Int
  n_ctx : Int
  top_k : Int
  top_p : f32
  temp : f32
  repeat_penalty : f32
  n_batch : Int
  model : String
  prompt : String
  antiprompt : List String
  memory_f16 : Bool
  random_prompt : Bool
  use_color : Bool
  interactive : Bool
  interactive_start : Bool
  instruct : Bool
  ignore_eos : Bool
  perplexity : Bool
  deriving DecidableEq, Repr

/-- What the parser reads from outside its arguments. -/
structure Env where
  /-- whether `__linux__` is defined -/
  linux : Bool
  /-- what `std::ifstream("/proc/cpuinfo")` yields (empty when it cannot be opened) -/
  cpuinfo : String
  /-- value of `std::thread::hardware_concurrency()` -/
  hardware_concurrency : Nat
  /-- content of the file at a path, `none` when it cannot be opened -/
  read_file : String → Option String
  /-- the library routine `std::stof` -/
  stof : String → Except Exception f32
  /-- the `%.1f` conversion of `fprintf` -/
  fmt_f1 : f32 → String

/-- How the evaluation of one value argument can fail. -/
inductive Failure
  | threw (e : Exception)
  | undefined
  deriving DecidableEq, Repr

/-- How a call of `gpt_params_parse` ends. -/
inductive Outcome
  /-- the function returns `result`, leaving `params` in the record -/
  | returned (result : Bool) (params : gpt_params)
  /-- `exit(status)` was called after `err` was written to `stderr` -/
  | exited (status : Int) (err : String) (params : gpt_params)
  /-- an exception left the function -/
  | threw (e : Exception)
  /-- undefined behaviour was reached -/
  | undefined
  deriving DecidableEq, Repr

/-! ## Library routines -/

/-- Conversion of an integer to `int32_t` (two's complement wrap-around). -/
def to_int32 (n : Int) : Int := (n + 2 ^ 31) % 2 ^ 32 - 2 ^ 31

/-- The predicate `isspace` of the "C" locale. -/
def isspace (c : Char) : Bool :=
  c = ' ' || c = '\t' || c = '\n' || c = Char.ofNat 11 || c = Char.ofNat 12 || c = '\r'

/-- The predicate `isdigit`. -/
def isdigit (c : Char) : Bool := decide (48 ≤ c.toNat) && decide (c.toNat ≤ 57)

/-- Value accumulated by `strtol` over a run of decimal digits. -/
def digits_value (ds : List Char) : Nat :=
  ds.foldl (fun acc c => 10 * acc + (c.toNat - 48)) 0

/-- Sign handling of `strtol`: an optional `+` or `-` is consumed. -/
def strip_sign : List Char → Bool × List Char
  | '-' :: r => (true, r)
  | '+' :: r => (false, r)
  | cs => (false, cs)

/-- The routine `std::stoi(str)` (base 10): leading white space is skipped, an
optional sign is read, then the longest run of digits; trailing characters
are ignored. No digit: `invalid_argument`. Value outside `int`:
`out_of_range`. -/
def stoi (s : String) : Except Exception Int :=
  let signed := strip_sign (s.data.dropWhile isspace)
  let ds := signed.2.takeWhile isdigit
  if ds = [] then .error .invalid_argument
  else
    let v : Int := if signed.1 then -(digits_value ds : Int) else (digits_value ds : Int)
    if v < -2 ^ 31 ∨ 2 ^ 31 - 1 < v then .error .out_of_range else .ok v

/-- White-space separated words, as `std::istream_iterator<std::string>` yields them. -/
def words (s : String) : List (List Char) :=
  (s.data.splitOnP isspace).filter (fun w => w ≠ [])

/-- The call `std::count(first, last, std::string("processor"))` over the words of a stream. -/
def count_processor (s : String) : Nat :=
  (words s).count "processor".data

/-- Removal of the last character, `std::string::pop_back`. -/
def pop_back (s : String) : String := ⟨s.data.dropLast⟩

/-! ## `gpt_print_usage` -/

/-- Text written to `stderr` by `gpt_print_usage(argc, argv, params)`. -/
def gpt_print_usage (env : Env) (argv0 : String) (params : gpt_params) : String :=
  "usage: " ++ argv0 ++ " [options]\n" ++
  "\n" ++
  "options:\n" ++
  "  -h, --help            show this help message and exit\n" ++
  "  -i, --interactive     run in interactive mode\n" ++
  "  --interactive-first   run in interactive mode and wait for input right away\n" ++
  "  -ins, --instruct      run in instruction mode (use with Alpaca models)\n" ++
  "  -r PROMPT, --reverse-prompt PROMPT\n" ++
  "                        run in interactive mode and poll user input upon seeing PROMPT (can be\n" ++
  "                        specified more than once for multiple prompts).\n" ++
  "  --color               colorise output to distinguish prompt and user input from generations\n" ++
  "  -s SEED, --seed SEED  RNG seed (default: -1, use random seed for <= 0)\n" ++
  "  -t N, --threads N     number of threads to use during computation (default: " ++
    toString params.n_threads ++ ")\n" ++
  "  -p PROMPT, --prompt PROMPT\n" ++
  "                        prompt to start generation with (default: empty)\n" ++
  "  --random-prompt       start with a randomized prompt.\n" ++
  "  -f FNAME, --file FNAME\n" ++
  "                        prompt file to start generation.\n" ++
  "  -n N, --n_predict N   number of tokens to predict (default: " ++
    toString params.n_predict ++ ")\n" ++
  "  --top_k N             top-k sampling (default: " ++ toString params.top_k ++ ")\n" ++
  "  --top_p N             top-p sampling (default: " ++ env.fmt_f1 params.top_p ++ ")\n" ++
  "  --repeat_last_n N     last n tokens to consider for penalize (default: " ++
    toString params.repeat_last_n ++ ")\n" ++
  "  --repeat_penalty N    penalize repeat sequence of tokens (default: " ++
    env.fmt_f1 params.repeat_penalty ++ ")\n" ++
  "  -c N, --ctx_size N    size of the prompt context (default: " ++
    toString params.n_ctx ++ ")\n" ++
  "  --ignore-eos          ignore end of stream token and continue generating\n" ++
  "  --memory_f16          use f16 instead of f32 for memory key+value\n" ++
  "  --temp N              temperature (default: " ++ env.fmt_f1 params.temp ++ ")\n" ++
  "  --n_parts N           number of model parts (default: -1 = determine from dimensions)\n" ++
  "  -b N, --batch_size N  batch size for prompt processing (default: " ++
    toString params.n_batch ++ ")\n" ++
  "  --perplexity          compute perplexity over the prompt\n" ++
  "  -m FNAME, --model FNAME\n" ++
  "                        model path (default: " ++ params.model ++ ")\n" ++
  "\n"

/-! ## `gpt_params_parse` -/

/-- The statements before the loop: the default number of threads. -/
def default_threads (env : Env) (params : gpt_params) : gpt_params :=
  let p1 := if env.linux then
      { params with n_threads := to_int32 (count_processor env.cpuinfo) }
    else params
  if p1.n_threads = 0 then
    { p1 with n_threads := max 1 (to_int32 env.hardware_concurrency) }
  else p1

/-- Lift of a numeric conversion into the evaluation of a value argument. -/
def convert {α : Type} (r : Except Exception α) (set : α → gpt_params) :
    Except Failure gpt_params :=
  match r with
  | .ok a => .ok (set a)
  | .error e => .error (.threw e)

/-- The branch `-f`/`--file`: the content of the file is appended to the prompt
(`back_inserter`), then `back()` is inspected and a final newline popped.
`back()` on an empty string is undefined. -/
def read_prompt_file (env : Env) (params : gpt_params) (path : String) :
    Except Failure gpt_params :=
  let prompt := params.prompt ++ (env.read_file path).getD ""
  match prompt.data.getLast? with
  | none => .error .undefined
  | some c =>
    if c = '\n' then .ok { params with prompt := pop_back prompt }
    else .ok { params with prompt := prompt }

/-- What one iteration of the loop does with `arg = argv[i]`. -/
inductive Action
  /-- the record is updated and no further argument is read -/
  | flag (params : gpt_params)
  /-- `argv[++i]` is read and evaluated -/
  | value (k : String → Except Failure gpt_params)
  /-- `err` is written to `stderr` and `exit(status)` is called -/
  | exit (err : String) (status : Int)

/-- The body of the loop of `gpt_params_parse`: the chain of comparisons on `arg`. -/
def dispatch (env : Env) (argv0 : String) (params : gpt_params) (arg : String) : Action :=
  if arg = "-s" ∨ arg = "--seed" then
    .value fun v => convert (stoi v) fun n => { params with seed := n }
  else if arg = "-t" ∨ arg = "--threads" then
    .value fun v => convert (stoi v) fun n => { params with n_threads := n }
  else if arg = "-p" ∨ arg = "--prompt" then
    .value fun v => .ok { params with prompt := v }
  else if arg = "-f" ∨ arg = "--file" then
    .value fun v => read_prompt_file env params v
  else if arg = "-n" ∨ arg = "--n_predict" then
    .value fun v => convert (stoi v) fun n => { params with n_predict := n }
  else if arg = "--top_k" then
    .value fun v => convert (stoi v) fun n => { params with top_k := n }
  else if arg = "-c" ∨ arg = "--ctx_size" then
    .value fun v => convert (stoi v) fun n => { params with n_ctx := n }
  else if arg = "--memory_f16" then
    .flag { params with memory_f16 := true }
  else if arg = "--top_p" then
    .value fun v => convert (env.stof v) fun x => { params with top_p := x }
  else if arg = "--temp" then
    .value fun v => convert (env.stof v) fun x => { params with temp := x }
  else if arg = "--repeat_last_n" then
    .value fun v => convert (stoi v) fun n => { params with repeat_last_n := n }
  else if arg = "--repeat_penalty" then
    .value fun v => convert (env.stof v) fun x => { params with repeat_penalty := x }
  else if arg = "-b" ∨ arg = "--batch_size" then
    .value fun v => convert (stoi v) fun n => { params with n_batch := n }
  else if arg = "-m" ∨ arg = "--model" then
    .value fun v => .ok { params with model := v }
  else if arg = "-i" ∨ arg = "--interactive" then
    .flag { params with interactive := true }
  else if arg = "--interactive-first" then
    .flag { params with interactive_start := true }
  else if arg = "-ins" ∨ arg = "--instruct" then
    .flag { params with instruct := true }
  else if arg = "--color" then
    .flag { params with use_color := true }
  else if arg = "-r" ∨ arg = "--reverse-prompt" then
    .value fun v => .ok { params with antiprompt := params.antiprompt ++ [v] }
  else if arg = "--perplexity" then
    .flag { params with perplexity := true }
  else if arg = "--ignore-eos" then
    .flag { params with ignore_eos := true }
  else if arg = "--n_parts" then
    .value fun v => convert (stoi v) fun n => { params with n_parts := n }
  else if arg = "-h" ∨ arg = "--help" then
    .exit (gpt_print_usage env argv0 params) 0
  else if arg = "--random-prompt" then
    .flag { params with random_prompt := true }
  else
    .exit ("error: unknown argument: " ++ arg ++ "\n" ++ gpt_print_usage env argv0 params) 0

/-- The loop `for (int i = 1; i < argc; i++)` over the arguments that remain.
A value-taking flag reads `argv[++i]`; when it is the last argument this is
`argv[argc]`, the null pointer, and the behaviour is undefined. -/
def parse_args (env : Env) (argv0 : String) : List String → gpt_params → Outcome
  | [], params => .returned true params
  | arg :: rest, params =>
    match dispatch env argv0 params arg with
    | .flag params' => parse_args env argv0 rest params'
    | .value k =>
      match rest with
      | [] => .undefined
      | v :: rest' =>
        match k v with
        | .ok params' => parse_args env argv0 rest' params'
        | .error (.threw e) => .threw e
        | .error .undefined => .undefined
    | .exit err status => .exited status err params

/-- The function `gpt_params_parse(argc, argv, params)`. -/
def gpt_params_parse (env : Env) (argv : List String) (params : gpt_params) : Outcome :=
  parse_args env (argv.headD "") argv.tail (default_threads env params)

/-! ## `gpt_random_prompt` -/

/-- A pseudo-random generator (`std::mt19937`): a state and the call `rng()`,
which yields a value and the next state. -/
structure Generator (σ : Type) where
  draw : σ → Nat × σ

/-- The function `gpt_random_prompt(rng)`: the prompt and the state of the generator afterwards. -/
def gpt_random_prompt {σ : Type} (rng : Generator σ) (s : σ) : String × σ :=
  let x := rng.draw s
  let r : Int := to_int32 (Int.ofNat (x.1 % 10))
  (match r with
    | 0 => "So"
    | 1 => "Once upon a time"
    | 2 => "When"
    | 3 => "The"
    | 4 => "After"
    | 5 => "If"
    | 6 => "import"
    | 7 => "He"
    | 8 => "She"
    | 9 => "They"
    | _ => "To", x.2)

/-! ## Vocabulary of the statements -/

/-- A decimal literal: an optional sign followed by one or more decimal digits. -/
def is_decimal_literal (v : String) : Bool :=
  match v.data with
  | '-' :: ds => !ds.isEmpty && ds.all Char.isDigit
  | '+' :: ds => !ds.isEmpty && ds.all Char.isDigit
  | ds => !ds.isEmpty && ds.all Char.isDigit

/-- The natural number a run of decimal digits denotes (positional notation). -/
def numeral_value (ds : List Char) : Nat :=
  Nat.ofDigits 10 (ds.reverse.map fun c => c.toNat - '0'.toNat)

/-- The integer a decimal literal denotes. -/
def literal_value (v : String) : Int :=
  match v.data with
  | '-' :: ds => -(numeral_value ds : Int)
  | '+' :: ds => (numeral_value ds : Int)
  | ds => (numeral_value ds : Int)

/-- Whether an integer is representable as `int32_t`. -/
def in_int32 (n : Int) : Prop := -2 ^ 31 ≤ n ∧ n ≤ 2 ^ 31 - 1

instance (n : Int) : Decidable (in_int32 n) := by unfold in_int32; infer_instance

/-- A sample configuration record (the defaults of the command-line front-end). -/
def sample_params : gpt_params :=
  { seed := -1, n_threads := 4, n_predict := 128, repeat_last_n := 64, n_parts := -1,
    n_ctx := 512, top_k := 40, top_p := ⟨0⟩, temp := ⟨0⟩, repeat_penalty := ⟨0⟩,
    n_batch := 8, model := "models/7B/ggml-model.bin", prompt := "", antiprompt := [],
    memory_f16 := false, random_prompt := false, use_color := false, interactive := false,
    interactive_start := false, instruct := false, ignore_eos := false, perplexity := false }

/-- A sample environment: two processors, one prompt file `a.txt` holding `hello\n`
and an empty file `empty.txt`. -/
def sample_env : Env :=
  { linux := true
    cpuinfo := "processor : 0\nprocessor : 1\n"
    hardware_concurrency := 2
    read_file := fun path =>
      if path = "a.txt" then some "hello\n" else if path = "empty.txt" then some "" else none
    stof := fun _ => .error .invalid_argument
    fmt_f1 := fun _ => "0.0" }

/-- The spellings of the flags that read a value argument. -/
def value_flags : List String :=
  ["-s", "--seed", "-t", "--threads", "-p", "--prompt", "-f", "--file", "-n", "--n_predict",
   "--top_k", "-c", "--ctx_size", "--top_p", "--temp", "--repeat_last_n", "--repeat_penalty",
   "-b", "--batch_size", "-m", "--model", "-r", "--reverse-prompt", "--n_parts"]

/-- The spellings of the boolean flags. -/
def toggle_flags : List String :=
  ["--memory_f16", "-i", "--interactive", "--interactive-first", "-ins", "--instruct",
   "--color", "--perplexity", "--ignore-eos", "--random-prompt"]

/-- The spellings of the help flag. -/
def help_flags : List String := ["-h", "--help"]

/-- Whether `arg` is a flag that reads a value argument. -/
def takes_value (arg : String) : Bool := value_flags.contains arg

/-- Whether `arg` is a boolean flag. -/
def is_toggle (arg : String) : Bool := toggle_flags.contains arg

/-- Whether `arg` is `-h` or `--help`. -/
def is_help (arg : String) : Bool := help_flags.contains arg

/-- Whether `arg` is one of the recognized flags. -/
def recognized (arg : String) : Bool := takes_value arg || is_toggle arg || is_help arg

/-- The arguments at flag positions: the scan starts at a flag position, and
the argument after a value-taking flag is its value, not a flag. -/
def flag_args : List String → List String
  | [] => []
  | [a] => [a]
  | a :: v :: rest =>
    if takes_value a then a :: flag_args rest else a :: flag_args (v :: rest)

/-- Whether the position just after the list is a flag position: no value-taking
flag at a flag position is left without its value. -/
def ends_at_flag_position : List String → Bool
  | [] => true
  | [a] => !takes_value a
  | a :: v :: rest =>
    if takes_value a then ends_at_flag_position rest else ends_at_flag_position (v :: rest)

/-- The runs of the loop, as a relation between the remaining arguments, the
record before, and the outcome: one rule for each way an iteration can go. -/
inductive Run (env : Env) (argv0 : String) : List String → gpt_params → Outcome → Prop
  | done (p : gpt_params) : Run env argv0 [] p (.returned true p)
  | flag {arg : String} {rest : List String} {p q : gpt_params} {o : Outcome} :
      dispatch env argv0 p arg = .flag q → Run env argv0 rest q o →
      Run env argv0 (arg :: rest) p o
  | value {arg v : String} {rest : List String} {p q : gpt_params} {o : Outcome}
      {k : String → Except Failure gpt_params} :
      dispatch env argv0 p arg = .value k → k v = .ok q → Run env argv0 rest q o →
      Run env argv0 (arg :: v :: rest) p o
  | value_threw {arg v : String} {rest : List String} {p : gpt_params} {e : Exception}
      {k : String → Except Failure gpt_params} :
      dispatch env argv0 p arg = .value k → k v = .error (.threw e) →
      Run env argv0 (arg :: v :: rest) p (.threw e)
  | value_undefined {arg v : String} {rest : List String} {p : gpt_params}
      {k : String → Except Failure gpt_params} :
      dispatch env argv0 p arg = .value k → k v = .error .undefined →
      Run env argv0 (arg :: v :: rest) p .undefined
  | value_missing {arg : String} {p : gpt_params}
      {k : String → Except Failure gpt_params} :
      dispatch env argv0 p arg = .value k → Run env argv0 [arg] p .undefined
  | exit {arg : String} {rest : List String} {p : gpt_params} {err : String} {status : Int} :
      dispatch env argv0 p arg = .exit err status →
      Run env argv0 (arg :: rest) p (.exited status err p)

/-- The spellings of the flags whose value goes through `std::stoi`. -/
def int_flags : List String :=
  ["-s", "--seed", "-t", "--threads", "-n", "--n_predict", "--top_k", "-c", "--ctx_size",
   "--repeat_last_n", "-b", "--batch_size", "--n_parts"]

/-- The spellings of the flags whose value goes through `std::stof`. -/
def float_flags : List String := ["--top_p", "--temp", "--repeat_penalty"]

/-- The spellings of the flags whose value is stored as it is. -/
def string_flags : List String := ["-p", "--prompt", "-m", "--model", "-r", "--reverse-prompt"]

/-- Whether `v` is a valid value for the value-taking flag `flag`: the numeric
conversion of the flag accepts it, the prompt file has some content; any string
is valid for the string-valued flags. -/
def valid_value (env : Env) (flag v : String) : Bool :=
  if int_flags.contains flag then (stoi v).toBool
  else if float_flags.contains flag then (env.stof v).toBool
  else if flag = "-f" ∨ flag = "--file" then !((env.read_file v).getD "").data.isEmpty
  else true

/-- Whether every value-taking flag at a flag position is followed by a valid value. -/
def valid_values (env : Env) : List String → Bool
  | [] => true
  | [a] => !takes_value a
  | a :: v :: rest =>
    if takes_value a then valid_value env a v && valid_values env rest
    else valid_values env (v :: rest)

/-- An argument on which the parser terminates the process when it stands at a
flag position: `-h`, `--help`, or a string that is not a recognized flag. -/
def terminating (arg : String) : Bool := is_help arg || !recognized arg

/-- The boolean fields of two records agree. -/
def same_bools (p q : gpt_params) : Prop :=
  q.memory_f16 = p.memory_f16 ∧ q.random_prompt = p.random_prompt ∧ q.use_color = p.use_color ∧
  q.interactive = p.interactive ∧ q.interactive_start = p.interactive_start ∧
  q.instruct = p.instruct ∧ q.ignore_eos = p.ignore_eos ∧ q.perplexity = p.perplexity

/-- No boolean field that is `true` in `p` is `false` in `q`. -/
def bools_preserved (p q : gpt_params) : Prop :=
  (p.memory_f16 = true → q.memory_f16 = true) ∧
  (p.random_prompt = true → q.random_prompt = true) ∧
  (p.use_color = true → q.use_color = true) ∧
  (p.interactive = true → q.interactive = true) ∧
  (p.interactive_start = true → q.interactive_start = true) ∧
  (p.instruct = true → q.instruct = true) ∧
  (p.ignore_eos = true → q.ignore_eos = true) ∧
  (p.perplexity = true → q.perplexity = true)

/-- The configuration field a boolean flag stands for (`true` for any other argument). -/
def toggle_field (arg : String) (q : gpt_params) : Bool :=
  if arg = "--memory_f16" then q.memory_f16
  else if arg = "-i" ∨ arg = "--interactive" then q.interactive
  else if arg = "--interactive-first" then q.interactive_start
  else if arg = "-ins" ∨ arg = "--instruct" then q.instruct
  else if arg = "--color" then q.use_color
  else if arg = "--perplexity" then q.perplexity
  else if arg = "--ignore-eos" then q.ignore_eos
  else if arg = "--random-prompt" then q.random_prompt
  else true

/-- The record an outcome carries, if any. -/
def Outcome.final_params : Outcome → Option gpt_params
  | .returned _ q => some q
  | .exited _ _ q => some q
  | .threw _ => none
  | .undefined => none

/-- The values of the `-r`/`--reverse-prompt` occurrences at flag positions, in order. -/
def reverse_prompt_values : List String → List String
  | [] => []
  | [_] => []
  | a :: v :: rest =>
    if a = "-r" ∨ a = "--reverse-prompt" then v :: reverse_prompt_values rest
    else if takes_value a then reverse_prompt_values rest
    else reverse_prompt_values (v :: rest)

/-- The flags that have a short and a long spelling. -/
def spelling_pairs : List (String × String) :=
  [("-s", "--seed"), ("-t", "--threads"), ("-p", "--prompt"), ("-f", "--file"),
   ("-n", "--n_predict"), ("-c", "--ctx_size"), ("-b", "--batch_size"), ("-m", "--model"),
   ("-i", "--interactive"), ("-ins", "--instruct"), ("-r", "--reverse-prompt"),
   ("-h", "--help")]

/-- The table of prompts of `gpt_random_prompt`. -/
def prompt_table : List String :=
  ["So", "Once upon a time", "When", "The", "After", "If", "import", "He", "She", "They"]

/-- The effect of a value-taking flag `a` with value `v` on the record `p`, flag by flag. -/
inductive Write (env : Env) (p : gpt_params) : String → String → gpt_params → Prop
  | seed {a v : String} {n : Int} : a = "-s" ∨ a = "--seed" → stoi v = .ok n →
      Write env p a v { p with seed := n }
  | threads {a v : String} {n : Int} : a = "-t" ∨ a = "--threads" → stoi v = .ok n →
      Write env p a v { p with n_threads := n }
  | prompt {a v : String} : a = "-p" ∨ a = "--prompt" → Write env p a v { p with prompt := v }
  | file {a v s : String} : a = "-f" ∨ a = "--file" →
      read_prompt_file env p v = .ok { p with prompt := s } →
      Write env p a v { p with prompt := s }
  | n_predict {a v : String} {n : Int} : a = "-n" ∨ a = "--n_predict" → stoi v = .ok n →
      Write env p a v { p with n_predict := n }
  | top_k {a v : String} {n : Int} : a = "--top_k" → stoi v = .ok n →
      Write env p a v { p with top_k := n }
  | n_ctx {a v : String} {n : Int} : a = "-c" ∨ a = "--ctx_size" → stoi v = .ok n →
      Write env p a v { p with n_ctx := n }
  | top_p {a v : String} {x : f32} : a = "--top_p" → env.stof v = .ok x →
      Write env p a v { p with top_p := x }
  | temp {a v : String} {x : f32} : a = "--temp" → env.stof v = .ok x →
      Write env p a v { p with temp := x }
  | repeat_last_n {a v : String} {n : Int} : a = "--repeat_last_n" → stoi v = .ok n →
      Write env p a v { p with repeat_last_n := n }
  | repeat_penalty {a v : String} {x : f32} : a = "--repeat_penalty" → env.stof v = .ok x →
      Write env p a v { p with repeat_penalty := x }
  | n_batch {a v : String} {n : Int} : a = "-b" ∨ a = "--batch_size" → stoi v = .ok n →
      Write env p a v { p with n_batch := n }
  | model {a v : String} : a = "-m" ∨ a = "--model" → Write env p a v { p with model := v }
  | antiprompt {a v : String} : a = "-r" ∨ a = "--reverse-prompt" →
      Write env p a v { p with antiprompt := p.antiprompt ++ [v] }
  | n_parts {a v : String} {n : Int} : a = "--n_parts" → stoi v = .ok n →
      Write env p a v { p with n_parts := n }

/-- The effect of a boolean flag `a` on the record `p`, flag by flag. -/
inductive Toggle (p : gpt_params) : String → gpt_params → Prop
  | memory_f16 {a : String} : a = "--memory_f16" → Toggle p a { p with memory_f16 := true }
  | interactive {a : String} : a = "-i" ∨ a = "--interactive" →
      Toggle p a { p with interactive := true }
  | interactive_start {a : String} : a = "--interactive-first" →
      Toggle p a { p with interactive_start := true }
  | instruct {a : String} : a = "-ins" ∨ a = "--instruct" →
      Toggle p a { p with instruct := true }
  | use_color {a : String} : a = "--color" → Toggle p a { p with use_color := true }
  | perplexity {a : String} : a = "--perplexity" → Toggle p a { p with perplexity := true }
  | ignore_eos {a : String} : a = "--ignore-eos" → Toggle p a { p with ignore_eos := true }
  | random_prompt {a : String} : a = "--random-prompt" →
      Toggle p a { p with random_prompt := true }

/-- The last occurrence at a flag position of a value-taking flag among those `S`
selects, with its value. -/
def last_occurrence (S : String → Bool) : List String → Option (String × String)
  | [] => none
  | [_] => none
  | a :: v :: rest =>
    if takes_value a then
      match last_occurrence S rest with
      | some r => some r
      | none => if S a then some (a, v) else none
    else last_occurrence S (v :: rest)

/-- A CPU-info stream made of `n` lines `processor`. -/
def many_processors (n : Nat) : String := ⟨(List.replicate n "processor\n".data).flatten⟩

/-- An environment that reports `2^31` hardware threads and has no CPU-info file. -/
def wide_env : Env := { sample_env with cpuinfo := "", hardware_concurrency := 2 ^ 31 }

/-- An environment whose CPU-info file has `2^31` lines `processor`. -/
def long_cpuinfo_env : Env := { sample_env with cpuinfo := many_processors (2 ^ 31) }

/-! ## `gpt_params_parse` with the index of the loop explicit -/

/-- The loop `for (int i = 1; i < argc; i++)` of `gpt_params_parse` with the index
`i` explicit: `argv[i]` is read, and a value-taking flag reads `argv[++i]`; on
`-h`/`--help` and on an unknown argument `gpt_print_usage(argc, argv, params)` is
called, which reads `argv[0]`. The result is the list of the indices at which
`argv` was subscripted, in order, and the outcome; `none` when the fuel (a bound
on the number of iterations) runs out. -/
def parse_indexed (env : Env) (argv : List String) :
    Nat → Nat → gpt_params → Option (List Nat × Outcome)
  | 0, _, _ => none
  | fuel + 1, i, params =>
    if i < argv.length then
      match dispatch env (argv.headD "") params (argv.getD i "") with
      | .flag q => (parse_indexed env argv fuel (i + 1) q).map fun r => (i :: r.1, r.2)
      | .value k =>
        if i + 1 < argv.length then
          match k (argv.getD (i + 1) "") with
          | .ok q =>
            (parse_indexed env argv fuel (i + 2) q).map fun r => (i :: (i + 1) :: r.1, r.2)
          | .error (.threw e) => some ([i, i + 1], .threw e)
          | .error .undefined => some ([i, i + 1], .undefined)
        else some ([i, i + 1], .undefined)
      | .exit err status => some ([i, 0], .exited status err params)
    else some ([], .returned true params)

/-- The function `gpt_params_parse` with the index of the loop explicit. -/
def gpt_params_parse_indexed (env : Env) (argv : List String) (fuel : Nat)
    (params : gpt_params) : Option (List Nat × Outcome) :=
  parse_indexed env argv fuel 1 (default_threads env params)

/-! ## Vocabulary of the statements: reached flags and malformed values -/

/-- The loop, started on `args` from the record `p`, reaches a value-taking flag
that is the last argument: the arguments before it are parsed to their end. -/
def Dangling (env : Env) (argv0 : String) (args : List String) (p : gpt_params) : Prop :=
  ∃ (before : List String) (a : String) (b : Bool) (q0 : gpt_params),
    args = before ++ [a] ∧ takes_value a = true ∧
      parse_args env argv0 before p = .returned b q0

/-- Whether a character sequence starts with a decimal digit, after an optional sign. -/
def digit_after_sign : List Char → Bool
  | '-' :: d :: _ => d.isDigit
  | '+' :: d :: _ => d.isDigit
  | d :: _ => d.isDigit
  | [] => false

/-- Whether a string starts with an integer: after optional leading white space and
an optional sign comes a decimal digit. -/
def has_leading_digit (v : String) : Bool := digit_after_sign (v.data.dropWhile isspace)

/-! ## `llama_tokenize` -/

/-- A token identifier (`llama_token`, an `int`). -/
abbrev llama_token := Int

/-- An exception of `std::vector`. -/
inductive VectorException
  | length_error
  deriving DecidableEq, Repr

/-- Conversion of an `int` to `size_t` (64 bits). -/
def to_size_t (n : Int) : Nat := (n % 2 ^ 64).toNat

/-- The bound `max_size()` of a `std::vector<int>` with 64-bit pointers. -/
def vector_max_size : Nat := (2 ^ 63 - 1) / 4

/-- The call `res.resize(n)` on a vector of tokens: the first `n` elements are
kept, zeros are appended when `n` exceeds the size, and `std::length_error` is
thrown when `n` exceeds `max_size()`. -/
def vector_resize (res : List llama_token) (n : Nat) :
    Except VectorException (List llama_token) :=
  if vector_max_size < n then .error .length_error
  else if n ≤ res.length then .ok (res.take n)
  else .ok (res ++ List.replicate (n - res.length) 0)

/-- Modelled from the spec: the underlying tokenizer `llama_tokenize(ctx, text, tokens,
n_max_tokens, add_bos)` is declared in `llama.h`, which is not among the
sources. Given the text, the buffer and its capacity, it yields the content of
the buffer after the call and the number of tokens it reports; it cannot change
the size of the buffer. -/
structure Tokenizer where
  run : String → List llama_token → Nat → Bool → List llama_token × Int
  same_size : ∀ (text : String) (buffer : List llama_token) (n_max_tokens : Nat)
    (add_bos : Bool), (run text buffer n_max_tokens add_bos).1.length = buffer.length

/-- The function `llama_tokenize(ctx, text, add_bos)` of `utils.cpp`. -/
def llama_tokenize (ctx : Tokenizer) (text : String) (add_bos : Bool) :
    Except VectorException (List llama_token) :=
  let res : List llama_token := List.replicate 8096 0
  let r := ctx.run text res res.length add_bos
  vector_resize r.1 (to_size_t r.2)

/-! ## Vocabulary of the statements: sample tokenizer and occurrence in a text -/

/-- A sample tokenizer: it writes the two tokens 1 and 15043 and reports 2. -/
def sample_tokenizer : Tokenizer where
  run := fun _ buffer _ _ =>
    ((([1, 15043] : List llama_token) ++ buffer.drop 2).take buffer.length, 2)
  same_size := by
    intro _ buffer _ _
    simp only [List.length_take, List.length_append, List.length_drop, List.length_cons,
      List.length_nil]
    omega

/-- Whether the string `s` occurs in the string `t`. -/
def occurs_in (s t : String) : Prop := s.data <:+: t.data

instance (s t : String) : Decidable (occurs_in s t) := by unfold occurs_in; infer_instance

/-- Whether a string has the form of an option name: it starts with `-` and has no
blank, comma or newline. -/
def is_option_word (a : String) : Bool :=
  a.data.head? = some '-' && a.data.all fun c => c ≠ ' ' && c ≠ ',' && c ≠ '\n'

/-- What may stand on a line of the option list before an option name: nothing, or
an earlier name (with its argument) followed by a comma and a blank, with no
newline and no run of two blanks in it. -/
def is_option_lead (lead : String) : Prop :=
  lead = "" ∨
    (lead.data.head? = some '-' ∧ '\n' ∉ lead.data ∧ ¬ occurs_in "  " lead ∧
      ", ".data <:+ lead.data)

instance (lead : String) : Decidable (is_option_lead lead) := by
  unfold is_option_lead; infer_instance

/-- Whether `a` is documented in the text `text` as an option: `a` has the form of
an option name and stands in the name column of a line of the option list, that
is, on a line that starts with two blanks, either as the first name or after an
earlier name and a comma, and is followed by a blank or a comma. -/
def documented (a text : String) : Prop :=
  is_option_word a = true ∧
    ∃ lead : String, is_option_lead lead ∧
      (occurs_in ("\n  " ++ lead ++ a ++ " ") text ∨
        occurs_in ("\n  " ++ lead ++ a ++ ",") text)

/-- The spellings the loop of `gpt_params_parse` compares its argument with. -/
def all_spellings : List String := value_flags ++ toggle_flags ++ help_flags

/-! ## The numeric conversion on decimal literals -/

theorem isdigit_eq_isDigit (c : Char) : isdigit c = c.isDigit := by
  simp only [isdigit, Char.isDigit, Char.toNat, ge_iff_le, UInt32.le_def, Fin.le_def]
  rfl

theorem digits_value_append (ds : List Char) (c : Char) :
    digits_value (ds ++ [c]) = 10 * digits_value ds + (c.toNat - 48) := by
  simp [digits_value, List.foldl_append]

theorem digits_value_eq_numeral_value (ds : List Char) :
    digits_value ds = numeral_value ds := by
  induction ds using List.reverseRecOn with
  | nil => simp [digits_value, numeral_value]
  | append_singleton ds c ih =>
    rw [digits_value_append, ih]
    simp [numeral_value, Nat.ofDigits_cons]
    omega

theorem takeWhile_isdigit_self (ds : List Char) (h : ds.all Char.isDigit = true) :
    ds.takeWhile isdigit = ds := by
  rw [List.takeWhile_eq_self_iff]
  intro c hc
  rw [isdigit_eq_isDigit]
  exact List.all_eq_true.mp h c hc

theorem not_isspace_of_isDigit (c : Char) (h : c.isDigit = true) : isspace c = false := by
  rw [← isdigit_eq_isDigit] at h
  simp only [isdigit, Bool.and_eq_true, decide_eq_true_eq] at h
  simp only [isspace, Bool.or_eq_false_iff, decide_eq_false_iff_not]
  refine ⟨⟨⟨⟨⟨?_, ?_⟩, ?_⟩, ?_⟩, ?_⟩, ?_⟩ <;> (rintro rfl; revert h; decide)

theorem stoi_digits (neg : Bool) (ds : List Char) (hne : ds ≠ []) (hd : ds.all Char.isDigit = true)
    (hr : in_int32 (if neg then -(numeral_value ds : Int) else numeral_value ds)) :
    (let v : Int := if neg then -(digits_value (ds.takeWhile isdigit) : Int) else (digits_value (ds.takeWhile isdigit) : Int)
     if ds.takeWhile isdigit = [] then (.error .invalid_argument : Except Exception Int)
     else if v < -2 ^ 31 ∨ 2 ^ 31 - 1 < v then .error .out_of_range else .ok v)
     = .ok (if neg then -(numeral_value ds : Int) else numeral_value ds) := by
  rw [takeWhile_isdigit_self ds hd, digits_value_eq_numeral_value]
  simp only [hne, if_false]
  unfold in_int32 at hr
  rw [if_neg (by omega)]

theorem stoi_decimal_literal (v : String) (h : is_decimal_literal v = true)
    (hr : in_int32 (literal_value v)) : stoi v = .ok (literal_value v) := by
  unfold is_decimal_literal at h
  unfold stoi
  split at h
  · next ds hv =>
    simp only [Bool.and_eq_true, Bool.not_eq_true', List.isEmpty_eq_false] at h
    simp only [literal_value, hv] at hr ⊢
    have := stoi_digits true ds (by simpa using h.1) h.2 (by simpa using hr)
    simpa [List.dropWhile, isspace, strip_sign] using this
  · next ds hv =>
    simp only [Bool.and_eq_true, Bool.not_eq_true', List.isEmpty_eq_false] at h
    simp only [literal_value, hv] at hr ⊢
    have := stoi_digits false ds (by simpa using h.1) h.2 (by simpa using hr)
    simpa [List.dropWhile, isspace, strip_sign] using this
  · next ds hm hp =>
    simp only [Bool.and_eq_true, Bool.not_eq_true', List.isEmpty_eq_false] at h
    have hne : v.data ≠ [] := by simpa using h.1
    obtain ⟨c, rest, hv⟩ := List.exists_cons_of_ne_nil hne
    have hc : c.isDigit = true := by
      have := h.2; rw [hv] at this; simp at this; exact this.1
    have hsp := not_isspace_of_isDigit c hc
    have hcm : c ≠ '-' := by rintro rfl; exact hm rest hv
    have hcp : c ≠ '+' := by rintro rfl; exact hp rest hv
    have h1 : List.dropWhile isspace v.data = v.data := by
      rw [hv, List.dropWhile_cons_of_neg (by simp [hsp])]
    have h2 : strip_sign v.data = (false, v.data) := by
      rw [hv]; unfold strip_sign; split
      · next heq => simp at heq; exact absurd heq.1 hcm
      · next heq => simp at heq; exact absurd heq.1 hcp
      · rfl
    have h3 : literal_value v = (numeral_value v.data : Int) := by
      unfold literal_value
      split
      · next heq => exact absurd heq (hm _)
      · next heq => exact absurd heq (hp _)
      · rfl
    rw [h3] at hr ⊢
    have := stoi_digits false v.data hne h.2 (by simpa using hr)
    simpa [h1, h2] using this

/-! ## The comparisons of the loop body -/

theorem dispatch_of_takes_value (env : Env) (argv0 : String) (p : gpt_params) (a : String)
    (h : takes_value a = true) : ∃ k, dispatch env argv0 p a = .value k := by
  simp only [takes_value, value_flags, List.contains_cons, List.contains_nil, Bool.or_false,
    Bool.or_eq_true, beq_iff_eq] at h
  rcases h with h | h | h | h | h | h | h | h | h | h | h | h | h | h | h | h | h | h | h | h | h | h | h | h <;>
    subst h <;> simp [dispatch]

theorem dispatch_of_is_toggle (env : Env) (argv0 : String) (p : gpt_params) (a : String)
    (h : is_toggle a = true) : ∃ q, dispatch env argv0 p a = .flag q := by
  simp only [is_toggle, toggle_flags, List.contains_cons, List.contains_nil, Bool.or_false,
    Bool.or_eq_true, beq_iff_eq] at h
  rcases h with h | h | h | h | h | h | h | h | h | h <;>
    subst h <;> simp [dispatch]

theorem dispatch_of_is_help (env : Env) (argv0 : String) (p : gpt_params) (a : String)
    (h : is_help a = true) : dispatch env argv0 p a = .exit (gpt_print_usage env argv0 p) 0 := by
  simp only [is_help, help_flags, List.contains_cons, List.contains_nil, Bool.or_false,
    Bool.or_eq_true, beq_iff_eq] at h
  rcases h with h | h <;>
    subst h <;> simp [dispatch]

theorem dispatch_of_not_recognized (env : Env) (argv0 : String) (p : gpt_params) (a : String)
    (h : recognized a = false) :
    dispatch env argv0 p a
      = .exit ("error: unknown argument: " ++ a ++ "\n" ++ gpt_print_usage env argv0 p) 0 := by
  simp only [recognized, takes_value, value_flags, is_toggle, toggle_flags, is_help, help_flags,
    List.contains_cons, List.contains_nil, Bool.or_false,
    Bool.or_eq_false_iff, beq_eq_false_iff_ne, ne_eq] at h
  simp [dispatch, h]

/-! ## The loop -/

theorem parse_args_flag {env : Env} {argv0 arg : String} {p q : gpt_params}
    (h : dispatch env argv0 p arg = .flag q) (rest : List String) :
    parse_args env argv0 (arg :: rest) p = parse_args env argv0 rest q := by
  simp [parse_args, h]

theorem parse_args_exit {env : Env} {argv0 arg : String} {p : gpt_params} {err : String}
    {status : Int} (h : dispatch env argv0 p arg = .exit err status) (rest : List String) :
    parse_args env argv0 (arg :: rest) p = .exited status err p := by
  simp [parse_args, h]

theorem parse_args_value_last {env : Env} {argv0 arg : String} {p : gpt_params}
    {k : String → Except Failure gpt_params} (h : dispatch env argv0 p arg = .value k) :
    parse_args env argv0 [arg] p = .undefined := by
  simp [parse_args, h]

theorem parse_args_value_ok {env : Env} {argv0 arg v : String} {p q : gpt_params}
    {k : String → Except Failure gpt_params} (h : dispatch env argv0 p arg = .value k)
    (hk : k v = .ok q) (rest : List String) :
    parse_args env argv0 (arg :: v :: rest) p = parse_args env argv0 rest q := by
  simp [parse_args, h, hk]

theorem parse_args_value_threw {env : Env} {argv0 arg v : String} {p : gpt_params}
    {k : String → Except Failure gpt_params} {e : Exception}
    (h : dispatch env argv0 p arg = .value k)
    (hk : k v = .error (.threw e)) (rest : List String) :
    parse_args env argv0 (arg :: v :: rest) p = .threw e := by
  simp [parse_args, h, hk]

theorem parse_args_value_undefined {env : Env} {argv0 arg v : String} {p : gpt_params}
    {k : String → Except Failure gpt_params} (h : dispatch env argv0 p arg = .value k)
    (hk : k v = .error .undefined) (rest : List String) :
    parse_args env argv0 (arg :: v :: rest) p = .undefined := by
  simp [parse_args, h, hk]

theorem run_parse_args_aux (env : Env) (argv0 : String) :
    ∀ (n : Nat) (args : List String), args.length ≤ n →
      ∀ p : gpt_params, Run env argv0 args p (parse_args env argv0 args p) := by
  intro n
  induction n with
  | zero =>
    intro args hlen p
    have : args = [] := List.length_eq_zero.mp (Nat.le_zero.mp hlen)
    subst this
    exact .done p
  | succ n ih =>
    intro args hlen p
    match args, hlen with
    | [], _ => exact .done p
    | arg :: rest, hlen =>
      cases hd : dispatch env argv0 p arg with
      | flag p1 =>
        rw [parse_args_flag hd]
        exact .flag hd (ih rest (by simpa using hlen) p1)
      | exit err status =>
        rw [parse_args_exit hd]
        exact .exit hd
      | value k =>
        match rest, hlen with
        | [], _ =>
          rw [parse_args_value_last hd]
          exact .value_missing hd
        | v :: rest1, hlen =>
          cases hk : k v with
          | ok p1 =>
            rw [parse_args_value_ok hd hk]
            exact .value hd hk (ih rest1 (by simp at hlen; omega) p1)
          | error e =>
            cases e with
            | threw e =>
              rw [parse_args_value_threw hd hk]
              exact .value_threw hd hk
            | undefined =>
              rw [parse_args_value_undefined hd hk]
              exact .value_undefined hd hk

/-- Every call of the loop is a run. -/
theorem run_parse_args (env : Env) (argv0 : String) (args : List String) (p : gpt_params) :
    Run env argv0 args p (parse_args env argv0 args p) :=
  run_parse_args_aux env argv0 args.length args le_rfl p

/-- A run determines the outcome of the loop. -/
theorem parse_args_eq_of_run {env : Env} {argv0 : String} {args : List String}
    {p : gpt_params} {o : Outcome} (h : Run env argv0 args p o) :
    parse_args env argv0 args p = o := by
  induction h with
  | done p => rfl
  | flag hd _ ih => rw [parse_args_flag hd, ih]
  | value hd hk _ ih => rw [parse_args_value_ok hd hk, ih]
  | value_threw hd hk => rw [parse_args_value_threw hd hk]
  | value_undefined hd hk => rw [parse_args_value_undefined hd hk]
  | value_missing hd => rw [parse_args_value_last hd]
  | exit hd => rw [parse_args_exit hd]

theorem run_append {env : Env} {argv0 : String} {before : List String} {p : gpt_params}
    {o : Outcome} (h : Run env argv0 before p o) :
    ∀ (b : Bool) (q : gpt_params), o = .returned b q → ∀ after : List String,
      parse_args env argv0 (before ++ after) p = parse_args env argv0 after q := by
  induction h with
  | done p => intro b q ho after; cases ho; rfl
  | flag hd _ ih =>
    intro b q ho after
    rw [List.cons_append, parse_args_flag hd]
    exact ih b q ho after
  | value hd hk _ ih =>
    intro b q ho after
    rw [List.cons_append, List.cons_append, parse_args_value_ok hd hk]
    exact ih b q ho after
  | value_threw hd hk => intro b q ho; cases ho
  | value_undefined hd hk => intro b q ho; cases ho
  | value_missing hd => intro b q ho; cases ho
  | exit hd => intro b q ho; cases ho

/-- A prefix of the arguments on which the loop runs to its end can be split off:
the loop continues on the remaining arguments from the record the prefix left. -/
theorem parse_args_append {env : Env} {argv0 : String} {before : List String}
    {p q : gpt_params} {b : Bool} (h : parse_args env argv0 before p = .returned b q)
    (after : List String) :
    parse_args env argv0 (before ++ after) p = parse_args env argv0 after q :=
  run_append (run_parse_args env argv0 before p) b q h after

theorem run_returns_true {env : Env} {argv0 : String} {args : List String} {p : gpt_params}
    {o : Outcome} (h : Run env argv0 args p o) :
    ∀ (b : Bool) (q : gpt_params), o = .returned b q → b = true := by
  induction h with
  | done p => intro b q ho; cases ho; rfl
  | flag _ _ ih => exact ih
  | value _ _ _ ih => exact ih
  | value_threw hd hk => intro b q ho; cases ho
  | value_undefined hd hk => intro b q ho; cases ho
  | value_missing hd => intro b q ho; cases ho
  | exit hd => intro b q ho; cases ho

/-! ## Single flags -/

/-- C1: on the argument list `[prog, flag, v]`, every integer-valued flag (in each
of its spellings) given a decimal literal `v` within the 32-bit signed range,
and every string-valued flag given any `v`, makes `gpt_params_parse` return
`true` with the flag's field equal to the integer `v` denotes, respectively to
`v` itself (the other fields are those left by the thread-count default). -/
theorem gpt_params_parse_single_flag (env : Env) (prog : String) (params : gpt_params) :
    (∀ v : String, is_decimal_literal v = true → in_int32 (literal_value v) →
      gpt_params_parse env [prog, "-s", v] params
        = .returned true { default_threads env params with seed := literal_value v } ∧
      gpt_params_parse env [prog, "--seed", v] params
        = .returned true { default_threads env params with seed := literal_value v } ∧
      gpt_params_parse env [prog, "-t", v] params
        = .returned true { default_threads env params with n_threads := literal_value v } ∧
      gpt_params_parse env [prog, "--threads", v] params
        = .returned true { default_threads env params with n_threads := literal_value v } ∧
      gpt_params_parse env [prog, "-n", v] params
        = .returned true { default_threads env params with n_predict := literal_value v } ∧
      gpt_params_parse env [prog, "--n_predict", v] params
        = .returned true { default_threads env params with n_predict := literal_value v } ∧
      gpt_params_parse env [prog, "--top_k", v] params
        = .returned true { default_threads env params with top_k := literal_value v } ∧
      gpt_params_parse env [prog, "-c", v] params
        = .returned true { default_threads env params with n_ctx := literal_value v } ∧
      gpt_params_parse env [prog, "--ctx_size", v] params
        = .returned true { default_threads env params with n_ctx := literal_value v } ∧
      gpt_params_parse env [prog, "--repeat_last_n", v] params
        = .returned true { default_threads env params with repeat_last_n := literal_value v } ∧
      gpt_params_parse env [prog, "-b", v] params
        = .returned true { default_threads env params with n_batch := literal_value v } ∧
      gpt_params_parse env [prog, "--batch_size", v] params
        = .returned true { default_threads env params with n_batch := literal_value v } ∧
      gpt_params_parse env [prog, "--n_parts", v] params
        = .returned true { default_threads env params with n_parts := literal_value v }) ∧
    (∀ v : String,
      gpt_params_parse env [prog, "-p", v] params
        = .returned true { default_threads env params with prompt := v } ∧
      gpt_params_parse env [prog, "--prompt", v] params
        = .returned true { default_threads env params with prompt := v } ∧
      gpt_params_parse env [prog, "-m", v] params
        = .returned true { default_threads env params with model := v } ∧
      gpt_params_parse env [prog, "--model", v] params
        = .returned true { default_threads env params with model := v }) := by
  constructor
  · intro v hv hr
    have hs := stoi_decimal_literal v hv hr
    simp [gpt_params_parse, parse_args, dispatch, convert, hs]
  · intro v
    simp [gpt_params_parse, parse_args, dispatch]

/-- Witness of C1: `-s -42` on the sample data sets the seed to -42. -/
theorem gpt_params_parse_single_flag_witness :
    gpt_params_parse sample_env ["main", "-s", "-42"] sample_params
      = .returned true { default_threads sample_env sample_params with seed := -42 } :=
  ((gpt_params_parse_single_flag sample_env "main" sample_params).1 "-42"
    (by decide) (by decide)).1

/-! ## Value-taking flags and their values -/

theorem toBool_ok {ε α : Type} {r : Except ε α} (h : r.toBool = true) : ∃ a, r = .ok a := by
  cases r with
  | ok a => exact ⟨a, rfl⟩
  | error e => simp [Except.toBool] at h

theorem read_prompt_file_ok (env : Env) (p : gpt_params) (v : String)
    (h : ((env.read_file v).getD "").data.isEmpty = false) :
    ∃ q, read_prompt_file env p v = .ok q := by
  unfold read_prompt_file
  have hne : (p.prompt ++ (env.read_file v).getD "").data ≠ [] := by
    simp only [String.data_append, ne_eq, List.append_eq_nil, not_and]
    intro _ h2
    simp [h2] at h
  obtain ⟨c, hc⟩ : ∃ c, (p.prompt ++ (env.read_file v).getD "").data.getLast? = some c := by
    cases hl : (p.prompt ++ (env.read_file v).getD "").data.getLast? with
    | none => exact absurd (List.getLast?_eq_none_iff.mp hl) hne
    | some c => exact ⟨c, rfl⟩
  simp only [hc]
  split <;> exact ⟨_, rfl⟩

theorem dispatch_int_flag (env : Env) (argv0 : String) (p : gpt_params) (a : String)
    (h : int_flags.contains a = true) :
    ∃ set : Int → gpt_params, dispatch env argv0 p a = .value fun v => convert (stoi v) set := by
  simp only [int_flags, List.contains_cons, List.contains_nil, Bool.or_false,
    Bool.or_eq_true, beq_iff_eq] at h
  rcases h with h | h | h | h | h | h | h | h | h | h | h | h | h <;>
    subst h <;> exact ⟨_, by simp [dispatch]; rfl⟩

theorem dispatch_float_flag (env : Env) (argv0 : String) (p : gpt_params) (a : String)
    (h : float_flags.contains a = true) :
    ∃ set : f32 → gpt_params,
      dispatch env argv0 p a = .value fun v => convert (env.stof v) set := by
  simp only [float_flags, List.contains_cons, List.contains_nil, Bool.or_false,
    Bool.or_eq_true, beq_iff_eq] at h
  rcases h with h | h | h <;>
    subst h <;> exact ⟨_, by simp [dispatch]; rfl⟩

theorem dispatch_file_flag (env : Env) (argv0 : String) (p : gpt_params) (a : String)
    (h : a = "-f" ∨ a = "--file") :
    dispatch env argv0 p a = .value fun v => read_prompt_file env p v := by
  rcases h with h | h <;> subst h <;> simp [dispatch]

theorem dispatch_string_flag (env : Env) (argv0 : String) (p : gpt_params) (a : String)
    (h : string_flags.contains a = true) :
    ∃ set : String → gpt_params, dispatch env argv0 p a = .value fun v => .ok (set v) := by
  simp only [string_flags, List.contains_cons, List.contains_nil, Bool.or_false,
    Bool.or_eq_true, beq_iff_eq] at h
  rcases h with h | h | h | h | h | h <;>
    subst h <;> exact ⟨_, by simp [dispatch]; rfl⟩

theorem takes_value_cases (a : String) (h : takes_value a = true) :
    int_flags.contains a = true ∨ float_flags.contains a = true ∨ (a = "-f" ∨ a = "--file") ∨
      string_flags.contains a = true := by
  simp only [takes_value, value_flags, List.contains_cons, List.contains_nil, Bool.or_false,
    Bool.or_eq_true, beq_iff_eq] at h
  rcases h with h | h | h | h | h | h | h | h | h | h | h | h | h | h | h | h | h | h | h | h | h | h | h | h <;>
    subst h <;> decide

theorem dispatch_value_ok (env : Env) (argv0 : String) (p : gpt_params) (a v : String)
    (h : takes_value a = true) (hv : valid_value env a v = true) :
    ∃ k q, dispatch env argv0 p a = .value k ∧ k v = .ok q := by
  unfold valid_value at hv
  by_cases hi : int_flags.contains a = true
  · obtain ⟨set, hd⟩ := dispatch_int_flag env argv0 p a hi
    rw [if_pos hi] at hv
    obtain ⟨n, hn⟩ := toBool_ok hv
    exact ⟨_, set n, hd, by simp [convert, hn]⟩
  · rw [if_neg hi] at hv
    by_cases hf : float_flags.contains a = true
    · obtain ⟨set, hd⟩ := dispatch_float_flag env argv0 p a hf
      rw [if_pos hf] at hv
      obtain ⟨x, hx⟩ := toBool_ok hv
      exact ⟨_, set x, hd, by simp [convert, hx]⟩
    · rw [if_neg hf] at hv
      by_cases hfile : a = "-f" ∨ a = "--file"
      · rw [if_pos hfile] at hv
        obtain ⟨q, hq⟩ := read_prompt_file_ok env p v (by simpa using hv)
        exact ⟨_, q, dispatch_file_flag env argv0 p a hfile, hq⟩
      · rcases takes_value_cases a h with h1 | h1 | h1 | h1
        · exact absurd h1 hi
        · exact absurd h1 hf
        · exact absurd h1 hfile
        · obtain ⟨set, hd⟩ := dispatch_string_flag env argv0 p a h1
          exact ⟨_, set v, hd, rfl⟩

theorem takes_value_not_help (a : String) (h : takes_value a = true) : is_help a = false := by
  simp only [takes_value, value_flags, List.contains_cons, List.contains_nil, Bool.or_false,
    Bool.or_eq_true, beq_iff_eq] at h
  rcases h with h | h | h | h | h | h | h | h | h | h | h | h | h | h | h | h | h | h | h | h | h | h | h | h <;>
    subst h <;> decide

theorem takes_value_not_terminating (a : String) (h : takes_value a = true) :
    terminating a = false := by
  simp [terminating, recognized, h, takes_value_not_help a h]

theorem dispatch_of_not_takes_value (env : Env) (argv0 : String) (p : gpt_params) (a : String)
    (h : takes_value a = false) :
    (terminating a = true ∧ ∃ err, dispatch env argv0 p a = .exit err 0) ∨
    (terminating a = false ∧ ∃ q, dispatch env argv0 p a = .flag q) := by
  by_cases hh : is_help a = true
  · exact .inl ⟨by simp [terminating, hh], _, dispatch_of_is_help env argv0 p a hh⟩
  · by_cases hr : recognized a = true
    · have ht : is_toggle a = true := by
        simp only [recognized, h, Bool.false_or, Bool.or_eq_true] at hr
        rcases hr with hr | hr
        · exact hr
        · exact absurd hr hh
      exact .inr ⟨by simp [terminating, hh, hr], dispatch_of_is_toggle env argv0 p a ht⟩
    · have hr2 : recognized a = false := by simpa using hr
      exact .inl ⟨by simp [terminating, hr2], _, dispatch_of_not_recognized env argv0 p a hr2⟩

theorem parse_args_of_valid (env : Env) (argv0 : String) (args : List String) :
    valid_values env args = true → ∀ p : gpt_params,
      ((flag_args args).any terminating = true →
        ∃ err q, parse_args env argv0 args p = .exited 0 err q) ∧
      ((flag_args args).any terminating = false →
        ∃ q, parse_args env argv0 args p = .returned true q) := by
  induction args using flag_args.induct with
  | case1 =>
    intro _ p
    simp [flag_args, parse_args]
  | case2 a =>
    intro hv p
    have hnv : takes_value a = false := by simpa [valid_values] using hv
    rcases dispatch_of_not_takes_value env argv0 p a hnv with ⟨ht, err, hd⟩ | ⟨ht, q, hd⟩
    · simp only [flag_args, List.any_cons, ht, List.any_nil, Bool.or_false, forall_const]
      exact ⟨⟨err, p, parse_args_exit hd []⟩, by simp⟩
    · simp only [flag_args, List.any_cons, ht, List.any_nil, Bool.or_false, forall_const]
      refine ⟨by simp, ⟨q, ?_⟩⟩
      rw [parse_args_flag hd]
      rfl
  | case3 a v rest ha ih =>
    intro hv p
    simp only [valid_values, ha, if_true, Bool.and_eq_true] at hv
    obtain ⟨k, q, hd, hk⟩ := dispatch_value_ok env argv0 p a v ha hv.1
    simp only [flag_args, ha, if_true, List.any_cons, takes_value_not_terminating a ha,
      Bool.false_or]
    rw [parse_args_value_ok hd hk]
    exact ih hv.2 q
  | case4 a v rest ha ih =>
    intro hv p
    have hnv : takes_value a = false := by simpa using ha
    simp only [valid_values, hnv, Bool.false_eq_true, if_false] at hv
    simp only [flag_args, hnv, Bool.false_eq_true, if_false, List.any_cons]
    rcases dispatch_of_not_takes_value env argv0 p a hnv with ⟨ht, err, hd⟩ | ⟨ht, q, hd⟩
    · simp only [ht, Bool.true_or, forall_const]
      exact ⟨⟨err, p, parse_args_exit hd _⟩, by simp⟩
    · simp only [ht, Bool.false_or]
      rw [parse_args_flag hd]
      exact ih hv q

/-! ## Help and unknown flags -/

/-- C2: when `-h` or `--help` stands at a flag position (the arguments before it
parse to the end, leaving the record `q`), `gpt_params_parse` writes the usage
text and calls `exit(0)` there: whatever follows is not parsed, and the record
at termination is `q`, the one the arguments before the flag give. -/
theorem gpt_params_parse_help (env : Env) (prog : String) (before after : List String)
    (params q : gpt_params) (b : Bool) (h : String)
    (hbefore : gpt_params_parse env (prog :: before) params = .returned b q)
    (hh : h = "-h" ∨ h = "--help") :
    gpt_params_parse env (prog :: (before ++ h :: after)) params
      = .exited 0 (gpt_print_usage env prog q) q := by
  simp only [gpt_params_parse, List.headD_cons, List.tail_cons] at hbefore ⊢
  rw [parse_args_append hbefore]
  have hd : dispatch env prog q h = .exit (gpt_print_usage env prog q) 0 :=
    dispatch_of_is_help env prog q h (by rcases hh with rfl | rfl <;> rfl)
  exact parse_args_exit hd after

/-- Witness of C2: `-s 7 -h -s 8 --bogus` exits at `-h` with seed 7. -/
theorem gpt_params_parse_help_witness :
    gpt_params_parse sample_env ["main", "-s", "7", "-h", "-s", "8", "--bogus"] sample_params
      = .exited 0
          (gpt_print_usage sample_env "main"
            { default_threads sample_env sample_params with seed := 7 })
          { default_threads sample_env sample_params with seed := 7 } :=
  gpt_params_parse_help sample_env "main" ["-s", "7"] ["-s", "8", "--bogus"] sample_params
    { default_threads sample_env sample_params with seed := 7 } true "-h" (by decide)
    (Or.inl rfl)

/-- C3: when the first argument the parser cannot handle stands at a flag position
(the arguments before it parse to the end, leaving the record `q`) and is not a
recognized flag, `gpt_params_parse` writes the error line and the usage text and
calls `exit` with status 0; whatever follows is not parsed. -/
theorem gpt_params_parse_unknown (env : Env) (prog : String) (before after : List String)
    (params q : gpt_params) (b : Bool) (arg : String)
    (hbefore : gpt_params_parse env (prog :: before) params = .returned b q)
    (harg : recognized arg = false) :
    gpt_params_parse env (prog :: (before ++ arg :: after)) params
      = .exited 0
          ("error: unknown argument: " ++ arg ++ "\n" ++ gpt_print_usage env prog q) q := by
  simp only [gpt_params_parse, List.headD_cons, List.tail_cons] at hbefore ⊢
  rw [parse_args_append hbefore]
  exact parse_args_exit (dispatch_of_not_recognized env prog q arg harg) after

/-- Witness of C3: `-i --bogus -s` exits at `--bogus` with status 0. -/
theorem gpt_params_parse_unknown_witness :
    gpt_params_parse sample_env ["main", "-i", "--bogus", "-s"] sample_params
      = .exited 0
          ("error: unknown argument: --bogus\n" ++ gpt_print_usage sample_env "main"
            { default_threads sample_env sample_params with interactive := true })
          { default_threads sample_env sample_params with interactive := true } :=
  gpt_params_parse_unknown sample_env "main" ["-i"] ["-s"] sample_params
    { default_threads sample_env sample_params with interactive := true } true "--bogus"
    (by decide) (by decide)

/-! ## Termination or return -/

/-- C4: on an argument list in which every value-taking flag at a flag position is
followed by a valid value (`valid_values`: the numeric conversion of the flag
accepts the value, the prompt file has some content, any string for the other
flags), `gpt_params_parse` terminates the process exactly when some argument at a
flag position is `-h`, `--help` or not a recognized flag; otherwise it returns,
and the value it returns is `true`. Whatever the arguments, it never returns
`false`. -/
theorem gpt_params_parse_exit_iff (env : Env) (argv : List String) (params : gpt_params)
    (hv : valid_values env argv.tail = true) :
    ((∃ status err q, gpt_params_parse env argv params = .exited status err q) ↔
      ∃ a ∈ flag_args argv.tail, a = "-h" ∨ a = "--help" ∨ recognized a = false) ∧
    ((¬ ∃ a ∈ flag_args argv.tail, a = "-h" ∨ a = "--help" ∨ recognized a = false) →
      ∃ q, gpt_params_parse env argv params = .returned true q) ∧
    (∀ b q, gpt_params_parse env argv params = .returned b q → b = true) := by
  have key := parse_args_of_valid env (argv.headD "") argv.tail hv (default_threads env params)
  have hany : (flag_args argv.tail).any terminating = true ↔
      ∃ a ∈ flag_args argv.tail, a = "-h" ∨ a = "--help" ∨ recognized a = false := by
    simp [List.any_eq_true, terminating, is_help, help_flags, or_assoc]
  refine ⟨⟨?_, ?_⟩, ?_, ?_⟩
  · rintro ⟨status, err, q, h⟩
    by_contra hno
    have hfalse : (flag_args argv.tail).any terminating = false := by
      rw [← Bool.not_eq_true, hany]; exact hno
    obtain ⟨q2, h2⟩ := key.2 hfalse
    rw [gpt_params_parse] at h
    rw [h2] at h
    cases h
  · intro h
    obtain ⟨err, q, h2⟩ := key.1 (hany.mpr h)
    exact ⟨0, err, q, h2⟩
  · intro hno
    have hfalse : (flag_args argv.tail).any terminating = false := by
      rw [← Bool.not_eq_true, hany]; exact hno
    exact key.2 hfalse
  · intro b q h
    exact run_returns_true (run_parse_args env _ _ _) b q h

/-- Witness of C4: `-s 1 -i -f a.txt` has valid values throughout. -/
theorem gpt_params_parse_exit_iff_witness :
    ((∃ status err q, gpt_params_parse sample_env ["main", "-s", "1", "-i", "-f", "a.txt"]
        sample_params = .exited status err q) ↔
      ∃ a ∈ flag_args ["-s", "1", "-i", "-f", "a.txt"],
        a = "-h" ∨ a = "--help" ∨ recognized a = false) ∧
    ((¬ ∃ a ∈ flag_args ["-s", "1", "-i", "-f", "a.txt"],
        a = "-h" ∨ a = "--help" ∨ recognized a = false) →
      ∃ q, gpt_params_parse sample_env ["main", "-s", "1", "-i", "-f", "a.txt"] sample_params
        = .returned true q) ∧
    (∀ b q, gpt_params_parse sample_env ["main", "-s", "1", "-i", "-f", "a.txt"] sample_params
        = .returned b q → b = true) :=
  gpt_params_parse_exit_iff sample_env ["main", "-s", "1", "-i", "-f", "a.txt"] sample_params
    (by decide)

/-! ## The prompt file -/

theorem read_prompt_file_of_ne (env : Env) (p : gpt_params) (path c : String)
    (hc : (env.read_file path).getD "" = c) (hne : p.prompt ++ c ≠ "") :
    ∃ q, read_prompt_file env p path = .ok q ∧ q = { p with prompt := q.prompt } ∧
      (∀ t : String, p.prompt ++ c = t ++ "\n" → q.prompt = t) ∧
      ((¬ ∃ t : String, p.prompt ++ c = t ++ "\n") → q.prompt = p.prompt ++ c) := by
  unfold read_prompt_file
  rw [hc]
  have hdata : (p.prompt ++ c).data ≠ [] := by
    intro h
    apply hne
    exact String.ext h
  obtain ⟨ch, hl⟩ : ∃ ch, (p.prompt ++ c).data.getLast? = some ch := by
    cases hl : (p.prompt ++ c).data.getLast? with
    | none => exact absurd (List.getLast?_eq_none_iff.mp hl) hdata
    | some ch => exact ⟨ch, rfl⟩
  simp only [hl]
  · have hsplit : (p.prompt ++ c).data = (p.prompt ++ c).data.dropLast ++ [ch] := by
      obtain ⟨l, hl2⟩ := (List.getLast?_eq_some_iff).mp hl
      rw [hl2, List.dropLast_concat]
    by_cases hch : ch = '\n'
    · subst hch
      simp only [if_true]
      refine ⟨_, rfl, rfl, ?_, ?_⟩
      · intro t ht
        apply String.ext
        simp only [pop_back]
        rw [ht]
        simp
      · intro hno
        exfalso
        apply hno
        refine ⟨⟨(p.prompt ++ c).data.dropLast⟩, ?_⟩
        apply String.ext
        rw [String.data_append]
        exact hsplit
    · simp only [hch, if_false]
      refine ⟨_, rfl, rfl, ?_, ?_⟩
      · intro t ht
        exfalso
        rw [ht] at hl
        simp at hl
        exact hch hl.symm
      · intro _
        rfl

/-- C5: the code at the failing input. With an empty prompt, `-f` on an empty file
(or on a file that cannot be opened) leaves the prompt empty, and the parser then
calls `back()` on the empty string: the behaviour is undefined, where the claim has
the prompt equal to the (empty) content. -/
theorem gpt_params_parse_empty_file :
    gpt_params_parse sample_env ["main", "-f", "empty.txt"] sample_params = .undefined ∧
    gpt_params_parse sample_env ["main", "--file", "missing.txt"] sample_params = .undefined := by
  decide

/-- Counterexample to C6: after `-p "hi "`, the flag `-f a.txt` (content `hello\n`)
leaves the prompt `hi hello`, not the content of the file. -/
theorem gpt_params_parse_file_replaces_counterexample :
    sample_env.read_file "a.txt" = some "hello\n" ∧
    ∃ q, gpt_params_parse sample_env ["main", "-p", "hi ", "-f", "a.txt"] sample_params
        = .returned true q ∧ q.prompt = "hi hello" ∧ q.prompt ≠ "hello" :=
  ⟨by decide, _, rfl, by decide, by decide⟩

/-- C6, amended: after arguments that leave the record `q0`, `-f <path>` (or
`--file <path>`) on a file of content `c` (empty when it cannot be opened), with
`q0.prompt ++ c` not empty, returns `true` with the prompt equal to the prior
prompt followed by `c`, less one trailing newline when there is one; the file
content is appended to the prior prompt, and no other field changes. -/
theorem gpt_params_parse_file_appends (env : Env) (prog : String) (before : List String)
    (params q0 : gpt_params) (b : Bool) (flag path c : String)
    (hbefore : gpt_params_parse env (prog :: before) params = .returned b q0)
    (hflag : flag = "-f" ∨ flag = "--file")
    (hc : (env.read_file path).getD "" = c) (hne : q0.prompt ++ c ≠ "") :
    ∃ q, gpt_params_parse env (prog :: (before ++ [flag, path])) params = .returned true q ∧
      q = { q0 with prompt := q.prompt } ∧
      (∀ t : String, q0.prompt ++ c = t ++ "\n" → q.prompt = t) ∧
      ((¬ ∃ t : String, q0.prompt ++ c = t ++ "\n") → q.prompt = q0.prompt ++ c) := by
  simp only [gpt_params_parse, List.headD_cons, List.tail_cons] at hbefore ⊢
  rw [parse_args_append hbefore]
  obtain ⟨q, hq, hrest⟩ := read_prompt_file_of_ne env q0 path c hc hne
  refine ⟨q, ?_, hrest⟩
  rw [parse_args_value_ok (dispatch_file_flag env prog q0 flag hflag) hq]
  rfl

/-- Witness of C6, amended: `-p "hi " --file a.txt`. -/
theorem gpt_params_parse_file_appends_witness :
    ∃ q, gpt_params_parse sample_env ["main", "-p", "hi ", "--file", "a.txt"] sample_params
        = .returned true q ∧
      q = { ({ default_threads sample_env sample_params with prompt := "hi " } : gpt_params)
            with prompt := q.prompt } ∧
      (∀ t : String, "hi " ++ "hello\n" = t ++ "\n" → q.prompt = t) ∧
      ((¬ ∃ t : String, "hi " ++ "hello\n" = t ++ "\n") → q.prompt = "hi " ++ "hello\n") :=
  gpt_params_parse_file_appends sample_env "main" ["-p", "hi "] sample_params
    { default_threads sample_env sample_params with prompt := "hi " } true "--file" "a.txt"
    "hello\n" (by decide) (Or.inr rfl) (by decide) (by decide)

/-! ## What each flag keeps -/

theorem same_bools_refl (p : gpt_params) : same_bools p p := by simp [same_bools]

theorem bools_preserved_of_same {p q : gpt_params} (h : same_bools p q) :
    bools_preserved p q := by
  obtain ⟨h1, h2, h3, h4, h5, h6, h7, h8⟩ := h
  simp [bools_preserved, h1, h2, h3, h4, h5, h6, h7, h8]

theorem bools_preserved_refl (p : gpt_params) : bools_preserved p p :=
  bools_preserved_of_same (same_bools_refl p)

theorem bools_preserved_trans {p q r : gpt_params} (h1 : bools_preserved p q)
    (h2 : bools_preserved q r) : bools_preserved p r := by
  obtain ⟨a1, a2, a3, a4, a5, a6, a7, a8⟩ := h1
  obtain ⟨b1, b2, b3, b4, b5, b6, b7, b8⟩ := h2
  exact ⟨fun h => b1 (a1 h), fun h => b2 (a2 h), fun h => b3 (a3 h), fun h => b4 (a4 h),
    fun h => b5 (a5 h), fun h => b6 (a6 h), fun h => b7 (a7 h), fun h => b8 (a8 h)⟩

theorem toggle_field_preserved {p q : gpt_params} (a : String) (h : bools_preserved p q)
    (ha : toggle_field a p = true) : toggle_field a q = true := by
  obtain ⟨h1, h2, h3, h4, h5, h6, h7, h8⟩ := h
  unfold toggle_field at ha ⊢
  split_ifs at ha ⊢
  · exact h1 ha
  · exact h4 ha
  · exact h5 ha
  · exact h6 ha
  · exact h3 ha
  · exact h8 ha
  · exact h7 ha
  · exact h2 ha
  · rfl

theorem convert_ok {α : Type} {r : Except Exception α} {set : α → gpt_params} {q : gpt_params}
    (h : convert r set = .ok q) : ∃ x, r = .ok x ∧ q = set x := by
  cases r with
  | ok x => simp [convert] at h; exact ⟨x, rfl, h.symm⟩
  | error e => simp [convert] at h

theorem read_prompt_file_frame {env : Env} {p q : gpt_params} {path : String}
    (h : read_prompt_file env p path = .ok q) : q = { p with prompt := q.prompt } := by
  simp only [read_prompt_file] at h
  split at h
  · cases h
  · split at h <;> (cases h; rfl)

/-- What a boolean flag does: one boolean field is set, the others and the
stop-string list are kept. -/
theorem dispatch_flag_inv {env : Env} {argv0 a : String} {p q : gpt_params}
    (h : dispatch env argv0 p a = .flag q) :
    takes_value a = false ∧ q.antiprompt = p.antiprompt ∧ bools_preserved p q ∧
      toggle_field a q = true := by
  by_cases ht : is_toggle a = true
  · simp only [is_toggle, toggle_flags, List.contains_cons, List.contains_nil, Bool.or_false,
      Bool.or_eq_true, beq_iff_eq] at ht
    rcases ht with ht | ht | ht | ht | ht | ht | ht | ht | ht | ht <;>
      subst ht <;> simp [dispatch] at h <;> subst h <;>
      exact ⟨by decide, rfl, by simp [bools_preserved], by simp [toggle_field]⟩
  · exfalso
    by_cases hv : takes_value a = true
    · obtain ⟨k, hk⟩ := dispatch_of_takes_value env argv0 p a hv
      rw [hk] at h
      cases h
    · have hv2 : takes_value a = false := by simpa using hv
      rcases dispatch_of_not_takes_value env argv0 p a hv2 with ⟨_, err, hd⟩ | ⟨hterm, _, _⟩
      · rw [hd] at h
        cases h
      · have ht2 : is_toggle a = false := by simpa using ht
        simp [terminating, recognized, hv2, ht2] at hterm

/-- What a value-taking flag does: the boolean fields are kept, and the stop-string
list is kept too unless the flag is `-r`/`--reverse-prompt`, which appends its value. -/
theorem dispatch_value_inv {env : Env} {argv0 a : String} {p : gpt_params}
    {k : String → Except Failure gpt_params} (h : dispatch env argv0 p a = .value k) :
    takes_value a = true ∧ ∀ v q, k v = .ok q → same_bools p q ∧
      q.antiprompt
        = p.antiprompt ++ (if a = "-r" ∨ a = "--reverse-prompt" then [v] else []) := by
  by_cases hv : takes_value a = true
  · refine ⟨hv, ?_⟩
    simp only [takes_value, value_flags, List.contains_cons, List.contains_nil, Bool.or_false,
      Bool.or_eq_true, beq_iff_eq] at hv
    rcases hv with hv | hv | hv | hv | hv | hv | hv | hv | hv | hv | hv | hv | hv | hv | hv | hv | hv | hv | hv | hv | hv | hv | hv | hv <;>
      subst hv <;> simp [dispatch] at h <;> subst h <;> intro v q hk <;>
      first
      | (obtain ⟨x, _, hq⟩ := convert_ok hk
         subst hq
         exact ⟨by simp [same_bools], by simp⟩)
      | (have hq := read_prompt_file_frame hk
         rw [hq]
         exact ⟨by simp [same_bools], by simp⟩)
      | (simp only [Except.ok.injEq] at hk
         subst hk
         exact ⟨by simp [same_bools], by simp⟩)
  · exfalso
    have hv2 : takes_value a = false := by simpa using hv
    rcases dispatch_of_not_takes_value env argv0 p a hv2 with ⟨_, err, hd⟩ | ⟨_, q, hd⟩ <;>
      (rw [hd] at h; cases h)

theorem dispatch_exit_inv {env : Env} {argv0 a err : String} {p : gpt_params} {status : Int}
    (h : dispatch env argv0 p a = .exit err status) :
    takes_value a = false ∧ terminating a = true ∧ status = 0 := by
  by_cases hv : takes_value a = true
  · obtain ⟨k, hk⟩ := dispatch_of_takes_value env argv0 p a hv
    rw [hk] at h
    cases h
  · have hv2 : takes_value a = false := by simpa using hv
    rcases dispatch_of_not_takes_value env argv0 p a hv2 with ⟨ht, err, hd⟩ | ⟨_, q, hd⟩
    · rw [hd] at h
      cases h
      exact ⟨hv2, ht, rfl⟩
    · rw [hd] at h
      cases h

/-! ## Stop strings and boolean flags -/

theorem reverse_prompt_takes_value (a : String) (h : a = "-r" ∨ a = "--reverse-prompt") :
    takes_value a = true := by
  rcases h with rfl | rfl <;> decide

theorem reverse_prompt_values_cons_flag (a : String) (rest : List String)
    (h : takes_value a = false) :
    reverse_prompt_values (a :: rest) = reverse_prompt_values rest := by
  cases rest with
  | nil => simp [reverse_prompt_values]
  | cons v r =>
    have hr : ¬ (a = "-r" ∨ a = "--reverse-prompt") := by
      intro hr
      rw [reverse_prompt_takes_value a hr] at h
      cases h
    simp [reverse_prompt_values, h, hr]

theorem flag_args_cons_flag (a : String) (rest : List String) (h : takes_value a = false) :
    flag_args (a :: rest) = a :: flag_args rest := by
  cases rest with
  | nil => simp [flag_args]
  | cons v r => simp [flag_args, h]

theorem flag_args_cons_value (a v : String) (rest : List String) (h : takes_value a = true) :
    flag_args (a :: v :: rest) = a :: flag_args rest := by
  simp [flag_args, h]

theorem run_antiprompt {env : Env} {argv0 : String} {args : List String} {p : gpt_params}
    {o : Outcome} (h : Run env argv0 args p o) :
    ∀ (b : Bool) (q : gpt_params), o = .returned b q →
      q.antiprompt = p.antiprompt ++ reverse_prompt_values args := by
  induction h with
  | done p => intro b q ho; cases ho; simp [reverse_prompt_values]
  | flag hd _ ih =>
    intro b q ho
    obtain ⟨hnv, hanti, _, _⟩ := dispatch_flag_inv hd
    rw [ih b q ho, hanti, reverse_prompt_values_cons_flag _ _ hnv]
  | @value arg v rest p p1 o k hd hk _ ih =>
    intro b q ho
    obtain ⟨hv, hfr⟩ := dispatch_value_inv hd
    rw [ih b q ho, (hfr v p1 hk).2]
    by_cases hr : arg = "-r" ∨ arg = "--reverse-prompt"
    · simp [reverse_prompt_values, hr]
    · simp [reverse_prompt_values, hr, hv]
  | value_threw hd hk => intro b q ho; cases ho
  | value_undefined hd hk => intro b q ho; cases ho
  | value_missing hd => intro b q ho; cases ho
  | exit hd => intro b q ho; cases ho

theorem default_threads_frame (env : Env) (p : gpt_params) :
    default_threads env p = { p with n_threads := (default_threads env p).n_threads } := by
  unfold default_threads
  simp only
  split_ifs <;> rfl

/-- C7: when `gpt_params_parse` returns, the stop-string list is the list before
the call followed by the values of the `-r`/`--reverse-prompt` occurrences at flag
positions, in the order of the command line. -/
theorem gpt_params_parse_antiprompt (env : Env) (argv : List String) (params q : gpt_params)
    (b : Bool) (h : gpt_params_parse env argv params = .returned b q) :
    q.antiprompt = params.antiprompt ++ reverse_prompt_values argv.tail := by
  have := run_antiprompt (run_parse_args env (argv.headD "") argv.tail
    (default_threads env params)) b q h
  rw [this, default_threads_frame]

/-- Witness of C7: `-r A -r B` from an empty list yields `["A", "B"]`. -/
theorem gpt_params_parse_antiprompt_witness :
    ({ default_threads sample_env sample_params with antiprompt := ["A", "B"] }
        : gpt_params).antiprompt
      = sample_params.antiprompt ++ reverse_prompt_values ["-r", "A", "-r", "B"] :=
  gpt_params_parse_antiprompt sample_env ["main", "-r", "A", "-r", "B"] sample_params
    { default_threads sample_env sample_params with antiprompt := ["A", "B"] } true (by decide)

theorem run_bools_preserved {env : Env} {argv0 : String} {args : List String}
    {p : gpt_params} {o : Outcome} (h : Run env argv0 args p o) :
    ∀ q : gpt_params, o.final_params = some q → bools_preserved p q := by
  induction h with
  | done p =>
    intro q ho
    simp only [Outcome.final_params, Option.some.injEq] at ho
    subst ho
    exact bools_preserved_refl _
  | flag hd _ ih =>
    intro q ho
    exact bools_preserved_trans (dispatch_flag_inv hd).2.2.1 (ih q ho)
  | @value arg v rest p p1 o k hd hk _ ih =>
    intro q ho
    exact bools_preserved_trans
      (bools_preserved_of_same ((dispatch_value_inv hd).2 v p1 hk).1) (ih q ho)
  | value_threw hd hk => intro q ho; cases ho
  | value_undefined hd hk => intro q ho; cases ho
  | value_missing hd => intro q ho; cases ho
  | exit hd =>
    intro q ho
    simp only [Outcome.final_params, Option.some.injEq] at ho
    subst ho
    exact bools_preserved_refl _

theorem toggle_field_of_takes_value (a : String) (q : gpt_params) (h : takes_value a = true) :
    toggle_field a q = true := by
  simp only [takes_value, value_flags, List.contains_cons, List.contains_nil, Bool.or_false,
    Bool.or_eq_true, beq_iff_eq] at h
  rcases h with h | h | h | h | h | h | h | h | h | h | h | h | h | h | h | h | h | h | h | h | h | h | h | h <;>
    subst h <;> simp [toggle_field]

theorem run_toggles {env : Env} {argv0 : String} {args : List String}
    {p : gpt_params} {o : Outcome} (h : Run env argv0 args p o) :
    ∀ (b : Bool) (q : gpt_params), o = .returned b q →
      ∀ a ∈ flag_args args, toggle_field a q = true := by
  induction h with
  | done p => intro b q _ a ha; simp [flag_args] at ha
  | flag hd hrun ih =>
    intro b q ho a ha
    obtain ⟨hnv, _, _, ht⟩ := dispatch_flag_inv hd
    rw [flag_args_cons_flag _ _ hnv, List.mem_cons] at ha
    rcases ha with rfl | ha
    · exact toggle_field_preserved _ (run_bools_preserved hrun q (by rw [ho]; rfl)) ht
    · exact ih b q ho a ha
  | value hd hk _ ih =>
    intro b q ho a ha
    have hv := (dispatch_value_inv hd).1
    rw [flag_args_cons_value _ _ _ hv, List.mem_cons] at ha
    rcases ha with rfl | ha
    · exact toggle_field_of_takes_value _ q hv
    · exact ih b q ho a ha
  | value_threw hd hk => intro b q ho; cases ho
  | value_undefined hd hk => intro b q ho; cases ho
  | value_missing hd => intro b q ho; cases ho
  | exit hd => intro b q ho; cases ho

theorem default_threads_bools (env : Env) (p : gpt_params) :
    bools_preserved p (default_threads env p) := by
  rw [default_threads_frame]
  simp [bools_preserved]

/-- C8: when `gpt_params_parse` returns, the field of every boolean flag that
occurs at a flag position is `true`, whatever it was before; and in the record
left by any call (on return or at `exit`) no boolean field that was `true` is
`false`. -/
theorem gpt_params_parse_toggles (env : Env) (argv : List String) (params : gpt_params) :
    (∀ (b : Bool) (q : gpt_params), gpt_params_parse env argv params = .returned b q →
      ("--memory_f16" ∈ flag_args argv.tail → q.memory_f16 = true) ∧
      ("-i" ∈ flag_args argv.tail ∨ "--interactive" ∈ flag_args argv.tail →
        q.interactive = true) ∧
      ("--interactive-first" ∈ flag_args argv.tail → q.interactive_start = true) ∧
      ("-ins" ∈ flag_args argv.tail ∨ "--instruct" ∈ flag_args argv.tail →
        q.instruct = true) ∧
      ("--color" ∈ flag_args argv.tail → q.use_color = true) ∧
      ("--perplexity" ∈ flag_args argv.tail → q.perplexity = true) ∧
      ("--ignore-eos" ∈ flag_args argv.tail → q.ignore_eos = true) ∧
      ("--random-prompt" ∈ flag_args argv.tail → q.random_prompt = true)) ∧
    (∀ q : gpt_params, (gpt_params_parse env argv params).final_params = some q →
      bools_preserved params q) := by
  constructor
  · intro b q h
    have key := run_toggles (run_parse_args env (argv.headD "") argv.tail
      (default_threads env params)) b q h
    refine ⟨fun h => ?_, fun h => ?_, fun h => ?_, fun h => ?_, fun h => ?_, fun h => ?_,
      fun h => ?_, fun h => ?_⟩
    · simpa [toggle_field] using key _ h
    · rcases h with h | h <;> simpa [toggle_field] using key _ h
    · simpa [toggle_field] using key _ h
    · rcases h with h | h <;> simpa [toggle_field] using key _ h
    · simpa [toggle_field] using key _ h
    · simpa [toggle_field] using key _ h
    · simpa [toggle_field] using key _ h
    · simpa [toggle_field] using key _ h
  · intro q h
    exact bools_preserved_trans (default_threads_bools env params)
      (run_bools_preserved (run_parse_args env (argv.headD "") argv.tail
        (default_threads env params)) q h)

/-- Witness of C8: `-i --color` from the sample record, where both fields are `false`. -/
theorem gpt_params_parse_toggles_witness :
    ({ default_threads sample_env sample_params with interactive := true, use_color := true }
        : gpt_params).interactive = true :=
  ((gpt_params_parse_toggles sample_env ["main", "-i", "--color"] sample_params).1 true
    { default_threads sample_env sample_params with interactive := true, use_color := true }
    (by decide)).2.1 (Or.inl (by decide))

/-! ## Short and long spellings -/

theorem dispatch_spelling (env : Env) (argv0 : String) (p : gpt_params) (a b : String)
    (h : (a, b) ∈ spelling_pairs) : dispatch env argv0 p a = dispatch env argv0 p b := by
  simp only [spelling_pairs, List.mem_cons, Prod.mk.injEq, List.mem_singleton,
    List.not_mem_nil, or_false] at h
  rcases h with h | h | h | h | h | h | h | h | h | h | h | h <;>
    (obtain ⟨rfl, rfl⟩ := h; simp [dispatch])

theorem parse_args_congr_head {env : Env} {argv0 a b : String}
    (h : ∀ p, dispatch env argv0 p a = dispatch env argv0 p b) (rest : List String)
    (p : gpt_params) :
    parse_args env argv0 (a :: rest) p = parse_args env argv0 (b :: rest) p := by
  rw [parse_args, parse_args, h p]

theorem parse_args_congr_at {env : Env} {argv0 a b : String}
    (h : ∀ p, dispatch env argv0 p a = dispatch env argv0 p b) (after : List String)
    (before : List String) :
    ends_at_flag_position before = true → ∀ p : gpt_params,
      parse_args env argv0 (before ++ a :: after) p
        = parse_args env argv0 (before ++ b :: after) p := by
  induction before using ends_at_flag_position.induct with
  | case1 => intro _ p; exact parse_args_congr_head h after p
  | case2 x =>
    intro hpos p
    have hx : takes_value x = false := by simpa [ends_at_flag_position] using hpos
    rcases dispatch_of_not_takes_value env argv0 p x hx with ⟨_, err, hd⟩ | ⟨_, q, hd⟩
    · simp only [List.cons_append, List.nil_append, parse_args_exit hd]
    · simp only [List.cons_append, List.nil_append, parse_args_flag hd]
      exact parse_args_congr_head h after q
  | case3 x v rest hx ih =>
    intro hpos p
    simp only [ends_at_flag_position, hx, if_true] at hpos
    obtain ⟨k, hd⟩ := dispatch_of_takes_value env argv0 p x hx
    simp only [List.cons_append]
    cases hk : k v with
    | ok q =>
      rw [parse_args_value_ok hd hk, parse_args_value_ok hd hk]
      exact ih hpos q
    | error e =>
      cases e with
      | threw e => rw [parse_args_value_threw hd hk, parse_args_value_threw hd hk]
      | undefined => rw [parse_args_value_undefined hd hk, parse_args_value_undefined hd hk]
  | case4 x v rest hx ih =>
    intro hpos p
    have hx2 : takes_value x = false := by simpa using hx
    simp only [ends_at_flag_position, hx2, Bool.false_eq_true, if_false] at hpos
    rcases dispatch_of_not_takes_value env argv0 p x hx2 with ⟨_, err, hd⟩ | ⟨_, q, hd⟩
    · simp only [List.cons_append, parse_args_exit hd]
    · simp only [List.cons_append, parse_args_flag hd]
      exact ih hpos q

/-- C9: for each flag with a short and a long spelling, replacing an occurrence
at a flag position of one spelling by the other leaves the outcome of
`gpt_params_parse` unchanged (the record returned, or the termination with its
status and output, or the failure). -/
theorem gpt_params_parse_spelling (env : Env) (prog : String) (before after : List String)
    (params : gpt_params) (a b : String)
    (hab : (a, b) ∈ spelling_pairs ∨ (b, a) ∈ spelling_pairs)
    (hpos : ends_at_flag_position before = true) :
    gpt_params_parse env (prog :: (before ++ a :: after)) params
      = gpt_params_parse env (prog :: (before ++ b :: after)) params := by
  simp only [gpt_params_parse, List.headD_cons, List.tail_cons]
  apply parse_args_congr_at _ after before hpos
  intro p
  rcases hab with h | h
  · exact dispatch_spelling env prog p a b h
  · exact (dispatch_spelling env prog p b a h).symm

/-- Witness of C9: the second `-s` of `-p -s -s 3 -i` stands at a flag position. -/
theorem gpt_params_parse_spelling_witness :
    gpt_params_parse sample_env ["main", "-p", "-s", "-s", "3", "-i"] sample_params
      = gpt_params_parse sample_env ["main", "-p", "-s", "--seed", "3", "-i"] sample_params :=
  gpt_params_parse_spelling sample_env "main" ["-p", "-s"] ["3", "-i"] sample_params
    "-s" "--seed" (Or.inl (by decide)) (by decide)

/-! ## The random prompt -/

theorem to_int32_of_lt (n : Nat) (h : n < 2 ^ 31) : to_int32 (n : Int) = (n : Int) := by
  unfold to_int32
  omega

/-- C10: `gpt_random_prompt` returns the entry of index `x % 10` of the table
`prompt_table`, where `x` is the value drawn, and leaves the generator in the
state after exactly that one draw. -/
theorem gpt_random_prompt_table {σ : Type} (rng : Generator σ) (s : σ) :
    prompt_table.get? ((rng.draw s).1 % 10) = some (gpt_random_prompt rng s).1 ∧
    (gpt_random_prompt rng s).2 = (rng.draw s).2 := by
  refine ⟨?_, rfl⟩
  have hlt : (rng.draw s).1 % 10 < 10 := Nat.mod_lt _ (by decide)
  simp only [gpt_random_prompt]
  rw [Int.ofNat_eq_coe, to_int32_of_lt _ (by omega)]
  generalize (rng.draw s).1 % 10 = r at hlt
  interval_cases r <;> rfl

/-! ## The effect of each flag -/

theorem dispatch_flag_toggle {env : Env} {argv0 a : String} {p q : gpt_params}
    (h : dispatch env argv0 p a = .flag q) : Toggle p a q := by
  have ht : is_toggle a = true := by
    by_contra ht
    have hnv := (dispatch_flag_inv h).1
    rcases dispatch_of_not_takes_value env argv0 p a hnv with ⟨_, err, hd⟩ | ⟨hterm, _, _⟩
    · rw [hd] at h
      cases h
    · have ht2 : is_toggle a = false := by simpa using ht
      simp [terminating, recognized, hnv, ht2] at hterm
  simp only [is_toggle, toggle_flags, List.contains_cons, List.contains_nil, Bool.or_false,
    Bool.or_eq_true, beq_iff_eq] at ht
  rcases ht with ht | ht | ht | ht | ht | ht | ht | ht | ht | ht <;>
    subst ht <;> simp [dispatch] at h <;> subst h
  · exact .memory_f16 rfl
  · exact .interactive (.inl rfl)
  · exact .interactive (.inr rfl)
  · exact .interactive_start rfl
  · exact .instruct (.inl rfl)
  · exact .instruct (.inr rfl)
  · exact .use_color rfl
  · exact .perplexity rfl
  · exact .ignore_eos rfl
  · exact .random_prompt rfl

theorem dispatch_value_write {env : Env} {argv0 a v : String} {p q : gpt_params}
    {k : String → Except Failure gpt_params} (h : dispatch env argv0 p a = .value k)
    (hk : k v = .ok q) : Write env p a v q := by
  have hv := (dispatch_value_inv h).1
  simp only [takes_value, value_flags, List.contains_cons, List.contains_nil, Bool.or_false,
    Bool.or_eq_true, beq_iff_eq] at hv
  rcases hv with hv | hv | hv | hv | hv | hv | hv | hv | hv | hv | hv | hv | hv | hv | hv | hv | hv | hv | hv | hv | hv | hv | hv | hv <;>
    subst hv <;> simp [dispatch] at h <;> subst h
  · obtain ⟨x, hx, rfl⟩ := convert_ok hk; exact .seed (.inl rfl) hx
  · obtain ⟨x, hx, rfl⟩ := convert_ok hk; exact .seed (.inr rfl) hx
  · obtain ⟨x, hx, rfl⟩ := convert_ok hk; exact .threads (.inl rfl) hx
  · obtain ⟨x, hx, rfl⟩ := convert_ok hk; exact .threads (.inr rfl) hx
  · cases hk; exact .prompt (.inl rfl)
  · cases hk; exact .prompt (.inr rfl)
  · have hq := read_prompt_file_frame hk
    rw [hq] at hk ⊢
    exact .file (.inl rfl) hk
  · have hq := read_prompt_file_frame hk
    rw [hq] at hk ⊢
    exact .file (.inr rfl) hk
  · obtain ⟨x, hx, rfl⟩ := convert_ok hk; exact .n_predict (.inl rfl) hx
  · obtain ⟨x, hx, rfl⟩ := convert_ok hk; exact .n_predict (.inr rfl) hx
  · obtain ⟨x, hx, rfl⟩ := convert_ok hk; exact .top_k rfl hx
  · obtain ⟨x, hx, rfl⟩ := convert_ok hk; exact .n_ctx (.inl rfl) hx
  · obtain ⟨x, hx, rfl⟩ := convert_ok hk; exact .n_ctx (.inr rfl) hx
  · obtain ⟨x, hx, rfl⟩ := convert_ok hk; exact .top_p rfl hx
  · obtain ⟨x, hx, rfl⟩ := convert_ok hk; exact .temp rfl hx
  · obtain ⟨x, hx, rfl⟩ := convert_ok hk; exact .repeat_last_n rfl hx
  · obtain ⟨x, hx, rfl⟩ := convert_ok hk; exact .repeat_penalty rfl hx
  · obtain ⟨x, hx, rfl⟩ := convert_ok hk; exact .n_batch (.inl rfl) hx
  · obtain ⟨x, hx, rfl⟩ := convert_ok hk; exact .n_batch (.inr rfl) hx
  · cases hk; exact .model (.inl rfl)
  · cases hk; exact .model (.inr rfl)
  · cases hk; exact .antiprompt (.inl rfl)
  · cases hk; exact .antiprompt (.inr rfl)
  · obtain ⟨x, hx, rfl⟩ := convert_ok hk; exact .n_parts rfl hx

/-! ## Frame lemmas -/

/-- A field that the flags outside `S` keep is the same after a run in which no
flag of `S` stands at a flag position. -/
theorem run_keeps {α : Type} (f : gpt_params → α) (S : String → Bool)
    (hw : ∀ (env : Env) (p : gpt_params) (a v : String) (q : gpt_params),
      Write env p a v q → S a = false → f q = f p)
    (ht : ∀ (p : gpt_params) (a : String) (q : gpt_params),
      Toggle p a q → S a = false → f q = f p)
    {env : Env} {argv0 : String} {args : List String} {p : gpt_params} {o : Outcome}
    (h : Run env argv0 args p o) :
    ∀ (b : Bool) (q : gpt_params), o = .returned b q →
      (∀ a ∈ flag_args args, S a = false) → f q = f p := by
  induction h with
  | done p => intro b q ho _; cases ho; rfl
  | @flag arg rest p p1 o hd _ ih =>
    intro b q ho hS
    rw [flag_args_cons_flag _ _ (dispatch_flag_inv hd).1] at hS
    rw [ih b q ho (fun a ha => hS a (List.mem_cons_of_mem _ ha))]
    exact ht p arg p1 (dispatch_flag_toggle hd) (hS arg (List.mem_cons_self _ _))
  | @value arg v rest p p1 o k hd hk _ ih =>
    intro b q ho hS
    rw [flag_args_cons_value _ _ _ (dispatch_value_inv hd).1] at hS
    rw [ih b q ho (fun a ha => hS a (List.mem_cons_of_mem _ ha))]
    exact hw env p arg v p1 (dispatch_value_write hd hk) (hS arg (List.mem_cons_self _ _))
  | value_threw hd hk => intro b q ho; cases ho
  | value_undefined hd hk => intro b q ho; cases ho
  | value_missing hd => intro b q ho; cases ho
  | exit hd => intro b q ho; cases ho

theorem last_occurrence_cons_flag (S : String → Bool) (a : String) (rest : List String)
    (h : takes_value a = false) :
    last_occurrence S (a :: rest) = last_occurrence S rest := by
  cases rest with
  | nil => simp [last_occurrence]
  | cons v r => simp [last_occurrence, h]

theorem toggle_not_takes_value {p q : gpt_params} {a : String} (h : Toggle p a q) :
    takes_value a = false := by
  cases h <;> rename_i ha <;>
    first
    | (subst ha; decide)
    | (rcases ha with ha | ha <;> subst ha <;> decide)

/-- A field that the flags outside `S` keep is the same after a run in which no
flag of `S` occurs with a value. -/
theorem run_keeps_none {α : Type} (f : gpt_params → α) (S : String → Bool)
    (hw : ∀ (env : Env) (p : gpt_params) (a v : String) (q : gpt_params),
      Write env p a v q → S a = false → f q = f p)
    (ht : ∀ (p : gpt_params) (a : String) (q : gpt_params), Toggle p a q → f q = f p)
    {env : Env} {argv0 : String} {args : List String} {p : gpt_params} {o : Outcome}
    (h : Run env argv0 args p o) :
    ∀ (b : Bool) (q : gpt_params), o = .returned b q →
      last_occurrence S args = none → f q = f p := by
  induction h with
  | done p => intro b q ho _; cases ho; rfl
  | @flag arg rest p p1 o hd _ ih =>
    intro b q ho hS
    rw [last_occurrence_cons_flag _ _ _ (dispatch_flag_inv hd).1] at hS
    rw [ih b q ho hS]
    exact ht p arg p1 (dispatch_flag_toggle hd)
  | @value arg v rest p p1 o k hd hk _ ih =>
    intro b q ho hS
    simp only [last_occurrence, (dispatch_value_inv hd).1, if_true] at hS
    cases hl : last_occurrence S rest with
    | some r => rw [hl] at hS; cases hS
    | none =>
      rw [hl] at hS
      have hSa : S arg = false := by
        cases hs : S arg with
        | false => rfl
        | true => simp [hs] at hS
      rw [ih b q ho hl]
      exact hw env p arg v p1 (dispatch_value_write hd hk) hSa
  | value_threw hd hk => intro b q ho; cases ho
  | value_undefined hd hk => intro b q ho; cases ho
  | value_missing hd => intro b q ho; cases ho
  | exit hd => intro b q ho; cases ho

/-- The field written last: after a run, a field that only the flags of `S` write
has the value it had right after the last occurrence of a flag of `S`. -/
theorem run_last {α : Type} (f : gpt_params → α) (S : String → Bool)
    (hw : ∀ (env : Env) (p : gpt_params) (a v : String) (q : gpt_params),
      Write env p a v q → S a = false → f q = f p)
    (ht : ∀ (p : gpt_params) (a : String) (q : gpt_params), Toggle p a q → f q = f p)
    {env : Env} {argv0 : String} {args : List String} {p : gpt_params} {o : Outcome}
    (h : Run env argv0 args p o) :
    ∀ (b : Bool) (q : gpt_params), o = .returned b q →
      ∀ a v, last_occurrence S args = some (a, v) →
        ∃ pm qm, S a = true ∧ Write env pm a v qm ∧ f q = f qm := by
  induction h with
  | done p => intro b q ho a v hl; simp [last_occurrence] at hl
  | @flag arg rest p p1 o hd _ ih =>
    intro b q ho a v hl
    rw [last_occurrence_cons_flag _ _ _ (dispatch_flag_inv hd).1] at hl
    exact ih b q ho a v hl
  | @value arg v0 rest p p1 o k hd hk hrun ih =>
    intro b q ho a v hl
    simp only [last_occurrence, (dispatch_value_inv hd).1, if_true] at hl
    cases hr : last_occurrence S rest with
    | some r =>
      rw [hr] at hl
      simp only [Option.some.injEq] at hl
      subst hl
      exact ih b q ho a v hr
    | none =>
      rw [hr] at hl
      cases hs : S arg with
      | false => simp [hs] at hl
      | true =>
        simp only [hs, if_true, Option.some.injEq, Prod.mk.injEq] at hl
        obtain ⟨rfl, rfl⟩ := hl
        exact ⟨p, p1, hs, dispatch_value_write hd hk,
          run_keeps_none f S hw ht hrun b q ho hr⟩
  | value_threw hd hk => intro b q ho; cases ho
  | value_undefined hd hk => intro b q ho; cases ho
  | value_missing hd => intro b q ho; cases ho
  | exit hd => intro b q ho; cases ho

theorem not_contains_of_not_mem (l fa : List String) (h : ∀ x ∈ l, x ∉ fa) :
    ∀ a ∈ fa, l.contains a = false := by
  intro a ha
  cases hc : l.contains a with
  | false => rfl
  | true =>
    exact absurd ha (h a (by simpa using hc))

/-- A field that the flags outside the list `l` keep, and the thread-count default
keeps, is the same after a successful parse of arguments in which no flag of `l`
stands at a flag position. -/
theorem parse_keeps {α : Type} (f : gpt_params → α) (l : List String)
    (hw : ∀ (env : Env) (p : gpt_params) (a v : String) (q : gpt_params),
      Write env p a v q → l.contains a = false → f q = f p)
    (ht : ∀ (p : gpt_params) (a : String) (q : gpt_params),
      Toggle p a q → l.contains a = false → f q = f p)
    (hd : ∀ (env : Env) (p : gpt_params), f (default_threads env p) = f p)
    (env : Env) (argv : List String) (params q : gpt_params) (b : Bool)
    (h : gpt_params_parse env argv params = .returned b q)
    (hl : ∀ x ∈ l, x ∉ flag_args argv.tail) : f q = f params := by
  rw [← hd env params]
  exact run_keeps f (fun a => l.contains a) hw ht
    (run_parse_args env (argv.headD "") argv.tail (default_threads env params)) b q h
    (not_contains_of_not_mem l _ hl)

/-! ## Each flag writes its own field -/

/-- C18: after a successful parse, every field other than the thread count is the
same as before the call when none of the flags that write it stands at a flag
position (the prompt is written by `-p`/`--prompt` and by `-f`/`--file`, every
other field by one flag, in its short or long spelling). -/
theorem gpt_params_parse_frame (env : Env) (argv : List String) (params q : gpt_params)
    (b : Bool) (h : gpt_params_parse env argv params = .returned b q) :
    ((∀ x ∈ ["-s", "--seed"], x ∉ flag_args argv.tail) → q.seed = params.seed) ∧
    ((∀ x ∈ ["-p", "--prompt", "-f", "--file"], x ∉ flag_args argv.tail) →
      q.prompt = params.prompt) ∧
    ((∀ x ∈ ["-n", "--n_predict"], x ∉ flag_args argv.tail) →
      q.n_predict = params.n_predict) ∧
    ((∀ x ∈ ["--top_k"], x ∉ flag_args argv.tail) → q.top_k = params.top_k) ∧
    ((∀ x ∈ ["-c", "--ctx_size"], x ∉ flag_args argv.tail) → q.n_ctx = params.n_ctx) ∧
    ((∀ x ∈ ["--memory_f16"], x ∉ flag_args argv.tail) →
      q.memory_f16 = params.memory_f16) ∧
    ((∀ x ∈ ["--top_p"], x ∉ flag_args argv.tail) → q.top_p = params.top_p) ∧
    ((∀ x ∈ ["--temp"], x ∉ flag_args argv.tail) → q.temp = params.temp) ∧
    ((∀ x ∈ ["--repeat_last_n"], x ∉ flag_args argv.tail) →
      q.repeat_last_n = params.repeat_last_n) ∧
    ((∀ x ∈ ["--repeat_penalty"], x ∉ flag_args argv.tail) →
      q.repeat_penalty = params.repeat_penalty) ∧
    ((∀ x ∈ ["-b", "--batch_size"], x ∉ flag_args argv.tail) →
      q.n_batch = params.n_batch) ∧
    ((∀ x ∈ ["-m", "--model"], x ∉ flag_args argv.tail) → q.model = params.model) ∧
    ((∀ x ∈ ["-i", "--interactive"], x ∉ flag_args argv.tail) →
      q.interactive = params.interactive) ∧
    ((∀ x ∈ ["--interactive-first"], x ∉ flag_args argv.tail) →
      q.interactive_start = params.interactive_start) ∧
    ((∀ x ∈ ["-ins", "--instruct"], x ∉ flag_args argv.tail) →
      q.instruct = params.instruct) ∧
    ((∀ x ∈ ["--color"], x ∉ flag_args argv.tail) → q.use_color = params.use_color) ∧
    ((∀ x ∈ ["-r", "--reverse-prompt"], x ∉ flag_args argv.tail) →
      q.antiprompt = params.antiprompt) ∧
    ((∀ x ∈ ["--perplexity"], x ∉ flag_args argv.tail) →
      q.perplexity = params.perplexity) ∧
    ((∀ x ∈ ["--ignore-eos"], x ∉ flag_args argv.tail) →
      q.ignore_eos = params.ignore_eos) ∧
    ((∀ x ∈ ["--n_parts"], x ∉ flag_args argv.tail) → q.n_parts = params.n_parts) ∧
    ((∀ x ∈ ["--random-prompt"], x ∉ flag_args argv.tail) →
      q.random_prompt = params.random_prompt) := by
  refine ⟨?_, ?_, ?_, ?_, ?_, ?_, ?_, ?_, ?_, ?_, ?_, ?_, ?_, ?_, ?_, ?_, ?_, ?_, ?_, ?_,
    ?_⟩ <;>
    refine parse_keeps _ _ ?_ ?_ ?_ env argv params q b h <;>
    first
    | (intro env p a v q h hS
       cases h <;> first | rfl | (simp at hS; tauto))
    | (intro p a q h hS
       cases h <;> first | rfl | (simp at hS; tauto))
    | (intro env p
       rw [default_threads_frame])

/-- Witness of C18: `-s 5` leaves the model path as it was. -/
theorem gpt_params_parse_frame_witness :
    ({ default_threads sample_env sample_params with seed := 5 } : gpt_params).model
      = sample_params.model :=
  (gpt_params_parse_frame sample_env ["main", "-s", "5"] sample_params
    { default_threads sample_env sample_params with seed := 5 } true (by decide)).2.2.2.2.2.2.2.2.2.2.2.1
    (by decide)

/-! ## The default number of threads -/

theorem words_many_processors (n : Nat) :
    words (many_processors n) = List.replicate n "processor".data := by
  induction n with
  | zero => simp [words, many_processors, List.splitOnP_nil]
  | succ n ih =>
    have hsplit : (many_processors (n + 1)).data
        = "processor".data ++ '\n' :: (many_processors n).data := by
      simp [many_processors, List.replicate_succ]
    have hfirst := List.splitOnP_first isspace "processor".data
      (by decide) '\n' (by decide) (many_processors n).data
    unfold words at ih ⊢
    rw [hsplit, hfirst, List.filter_cons_of_pos (by decide), ih, List.replicate_succ]

theorem count_many_processors (n : Nat) : count_processor (many_processors n) = n := by
  simp [count_processor, words_many_processors]

/-- Without `-t`/`--threads` the loop keeps the thread count the first statements set. -/
theorem gpt_params_parse_threads_default (env : Env) (argv : List String)
    (params q : gpt_params) (b : Bool)
    (h : gpt_params_parse env argv params = .returned b q)
    (hno : ∀ x ∈ ["-t", "--threads"], x ∉ flag_args argv.tail) :
    q.n_threads = (default_threads env params).n_threads :=
  run_keeps (fun p => p.n_threads) (fun a => ["-t", "--threads"].contains a)
    (by intro env p a v q h hS; cases h <;> first | rfl | (simp at hS; tauto))
    (by intro p a q h _; cases h <;> rfl)
    (run_parse_args env (argv.headD "") argv.tail (default_threads env params)) b q h
    (not_contains_of_not_mem _ _ hno)

/-- C12, amended: on the Linux path, after a successful parse of arguments without
`-t`/`--threads` at a flag position, and when the number of `processor` words of
the CPU-info file and the reported hardware concurrency are both below `2^31`
(representable in the `int32_t` thread count), the thread count is the number of
`processor` words when that is positive, and `max(1, hardware concurrency)`
otherwise; it is at least 1, whatever it was before the call. -/
theorem gpt_params_parse_threads (env : Env) (argv : List String) (params q : gpt_params)
    (b : Bool) (hlinux : env.linux = true)
    (h : gpt_params_parse env argv params = .returned b q)
    (hno : ∀ x ∈ ["-t", "--threads"], x ∉ flag_args argv.tail)
    (hc : count_processor env.cpuinfo < 2 ^ 31) (hh : env.hardware_concurrency < 2 ^ 31) :
    (0 < count_processor env.cpuinfo → q.n_threads = (count_processor env.cpuinfo : Int)) ∧
    (count_processor env.cpuinfo = 0 →
      q.n_threads = max 1 (env.hardware_concurrency : Int)) ∧
    1 ≤ q.n_threads := by
  rw [gpt_params_parse_threads_default env argv params q b h hno]
  simp only [default_threads, hlinux, if_true, to_int32_of_lt _ hc, to_int32_of_lt _ hh]
  by_cases h0 : count_processor env.cpuinfo = 0
  · simp [h0]
  · have hpos : 0 < count_processor env.cpuinfo := Nat.pos_of_ne_zero h0
    have hne : (count_processor env.cpuinfo : Int) ≠ 0 := by omega
    simp only [hne, if_false]
    refine ⟨?_, fun h => absurd h h0, by omega⟩
    intro _
    trivial

/-- Witness of C12, amended: `-s 5` on the sample environment (two processors). -/
theorem gpt_params_parse_threads_witness :
    (0 < count_processor sample_env.cpuinfo →
      ({ default_threads sample_env sample_params with seed := 5 } : gpt_params).n_threads
        = (count_processor sample_env.cpuinfo : Int)) ∧
    (count_processor sample_env.cpuinfo = 0 →
      ({ default_threads sample_env sample_params with seed := 5 } : gpt_params).n_threads
        = max 1 (sample_env.hardware_concurrency : Int)) ∧
    1 ≤ ({ default_threads sample_env sample_params with seed := 5 } : gpt_params).n_threads :=
  gpt_params_parse_threads sample_env ["main", "-s", "5"] sample_params
    { default_threads sample_env sample_params with seed := 5 } true rfl (by decide)
    (by decide) (by decide) (by decide)

/-- Counterexample to C12: with no CPU-info and a reported hardware concurrency of
`2^31`, the conversion to `int32_t` is negative and the thread count is 1, not
`max(1, 2^31)`; with `2^31` words `processor`, the thread count is `-2^31`, which
is neither that number nor at least 1. -/
theorem gpt_params_parse_threads_counterexample :
    (wide_env.linux = true ∧ count_processor wide_env.cpuinfo = 0 ∧
      ∃ q, gpt_params_parse wide_env ["main"] sample_params = .returned true q ∧
        q.n_threads = 1 ∧ q.n_threads ≠ max 1 (wide_env.hardware_concurrency : Int)) ∧
    (long_cpuinfo_env.linux = true ∧ 0 < count_processor long_cpuinfo_env.cpuinfo ∧
      ∃ q, gpt_params_parse long_cpuinfo_env ["main"] sample_params = .returned true q ∧
        q.n_threads < 1 ∧
        q.n_threads ≠ (count_processor long_cpuinfo_env.cpuinfo : Int)) := by
  refine ⟨⟨rfl, by decide, _, rfl, by decide, by decide⟩, ?_⟩
  have hcount : count_processor long_cpuinfo_env.cpuinfo = 2 ^ 31 :=
    count_many_processors (2 ^ 31)
  have hn : (default_threads long_cpuinfo_env sample_params).n_threads = -2 ^ 31 := by
    have hl : long_cpuinfo_env.linux = true := rfl
    simp only [default_threads, hl, if_true, hcount]
    have h31 : to_int32 ((2 ^ 31 : Nat) : Int) = -2 ^ 31 := by
      unfold to_int32
      norm_num
    rw [h31]
    norm_num
  refine ⟨rfl, by rw [hcount]; decide, _, rfl, ?_, ?_⟩
  · rw [hn]
    norm_num
  · rw [hn, hcount]
    norm_num

/-! ## Repeated flags -/

/-- The field written last, for `gpt_params_parse`. -/
theorem parse_last {α : Type} (f : gpt_params → α) (l : List String)
    (hw : ∀ (env : Env) (p : gpt_params) (a v : String) (q : gpt_params),
      Write env p a v q → l.contains a = false → f q = f p)
    (ht : ∀ (p : gpt_params) (a : String) (q : gpt_params), Toggle p a q → f q = f p)
    (env : Env) (argv : List String) (params q : gpt_params) (b : Bool)
    (h : gpt_params_parse env argv params = .returned b q) (a v : String)
    (hl : last_occurrence (fun x => l.contains x) argv.tail = some (a, v)) :
    ∃ pm qm, l.contains a = true ∧ Write env pm a v qm ∧ f q = f qm :=
  run_last f (fun x => l.contains x) hw ht
    (run_parse_args env (argv.headD "") argv.tail (default_threads env params)) b q h a v hl

/-- C19, amended: after a successful parse, the field of each scalar value-taking
flag other than `-f`/`--file` holds the converted value of the last occurrence
of the flag at a flag position, whatever the earlier occurrences were: the
integer `std::stoi` gives for the integer flags, the value itself for the
model; for the prompt this holds when the last of the `-p`/`--prompt` and
`-f`/`--file` occurrences is a `-p`/`--prompt` (a later `-f` appends to the
prompt). -/
theorem gpt_params_parse_last_occurrence (env : Env) (argv : List String)
    (params q : gpt_params) (b : Bool)
    (h : gpt_params_parse env argv params = .returned b q) :
    (∀ a v, last_occurrence (fun x => ["-s", "--seed"].contains x) argv.tail = some (a, v) →
      stoi v = .ok q.seed) ∧
    (∀ a v, last_occurrence (fun x => ["-t", "--threads"].contains x) argv.tail = some (a, v) →
      stoi v = .ok q.n_threads) ∧
    (∀ a v, last_occurrence (fun x => ["-n", "--n_predict"].contains x) argv.tail = some (a, v) →
      stoi v = .ok q.n_predict) ∧
    (∀ a v, last_occurrence (fun x => ["--top_k"].contains x) argv.tail = some (a, v) →
      stoi v = .ok q.top_k) ∧
    (∀ a v, last_occurrence (fun x => ["-c", "--ctx_size"].contains x) argv.tail = some (a, v) →
      stoi v = .ok q.n_ctx) ∧
    (∀ a v, last_occurrence (fun x => ["--repeat_last_n"].contains x) argv.tail = some (a, v) →
      stoi v = .ok q.repeat_last_n) ∧
    (∀ a v, last_occurrence (fun x => ["-b", "--batch_size"].contains x) argv.tail = some (a, v) →
      stoi v = .ok q.n_batch) ∧
    (∀ a v, last_occurrence (fun x => ["--n_parts"].contains x) argv.tail = some (a, v) →
      stoi v = .ok q.n_parts) ∧
    (∀ a v, last_occurrence (fun x => ["-m", "--model"].contains x) argv.tail = some (a, v) →
      q.model = v) ∧
    (∀ a v, last_occurrence (fun x => ["-p", "--prompt", "-f", "--file"].contains x) argv.tail
        = some (a, v) → a = "-p" ∨ a = "--prompt" → q.prompt = v) := by
  refine ⟨?_, ?_, ?_, ?_, ?_, ?_, ?_, ?_, ?_, ?_⟩
  · intro a v hl
    obtain ⟨pm, qm, hS, hW, hq⟩ := parse_last (fun p => p.seed) _
      (by intro env p a v q h hS; cases h <;> first | rfl | (simp at hS; tauto))
      (by intro p a q h; cases h <;> rfl) env argv params q b h a v hl
    simp only [List.contains_cons, List.contains_nil, Bool.or_false, Bool.or_eq_true,
      beq_iff_eq] at hS
    cases hW <;> first
      | (simp only at hq; rw [hq]; assumption)
      | (exfalso; rcases hS with rfl | rfl <;> simp_all)
  · intro a v hl
    obtain ⟨pm, qm, hS, hW, hq⟩ := parse_last (fun p => p.n_threads) _
      (by intro env p a v q h hS; cases h <;> first | rfl | (simp at hS; tauto))
      (by intro p a q h; cases h <;> rfl) env argv params q b h a v hl
    simp only [List.contains_cons, List.contains_nil, Bool.or_false, Bool.or_eq_true,
      beq_iff_eq] at hS
    cases hW <;> first
      | (simp only at hq; rw [hq]; assumption)
      | (exfalso; rcases hS with rfl | rfl <;> simp_all)
  · intro a v hl
    obtain ⟨pm, qm, hS, hW, hq⟩ := parse_last (fun p => p.n_predict) _
      (by intro env p a v q h hS; cases h <;> first | rfl | (simp at hS; tauto))
      (by intro p a q h; cases h <;> rfl) env argv params q b h a v hl
    simp only [List.contains_cons, List.contains_nil, Bool.or_false, Bool.or_eq_true,
      beq_iff_eq] at hS
    cases hW <;> first
      | (simp only at hq; rw [hq]; assumption)
      | (exfalso; rcases hS with rfl | rfl <;> simp_all)
  · intro a v hl
    obtain ⟨pm, qm, hS, hW, hq⟩ := parse_last (fun p => p.top_k) _
      (by intro env p a v q h hS; cases h <;> first | rfl | (simp at hS; tauto))
      (by intro p a q h; cases h <;> rfl) env argv params q b h a v hl
    simp only [List.contains_cons, List.contains_nil, Bool.or_false, Bool.or_eq_true,
      beq_iff_eq] at hS
    cases hW <;> first
      | (simp only at hq; rw [hq]; assumption)
      | (exfalso; subst hS; simp_all)
  · intro a v hl
    obtain ⟨pm, qm, hS, hW, hq⟩ := parse_last (fun p => p.n_ctx) _
      (by intro env p a v q h hS; cases h <;> first | rfl | (simp at hS; tauto))
      (by intro p a q h; cases h <;> rfl) env argv params q b h a v hl
    simp only [List.contains_cons, List.contains_nil, Bool.or_false, Bool.or_eq_true,
      beq_iff_eq] at hS
    cases hW <;> first
      | (simp only at hq; rw [hq]; assumption)
      | (exfalso; rcases hS with rfl | rfl <;> simp_all)
  · intro a v hl
    obtain ⟨pm, qm, hS, hW, hq⟩ := parse_last (fun p => p.repeat_last_n) _
      (by intro env p a v q h hS; cases h <;> first | rfl | (simp at hS; tauto))
      (by intro p a q h; cases h <;> rfl) env argv params q b h a v hl
    simp only [List.contains_cons, List.contains_nil, Bool.or_false, Bool.or_eq_true,
      beq_iff_eq] at hS
    cases hW <;> first
      | (simp only at hq; rw [hq]; assumption)
      | (exfalso; subst hS; simp_all)
  · intro a v hl
    obtain ⟨pm, qm, hS, hW, hq⟩ := parse_last (fun p => p.n_batch) _
      (by intro env p a v q h hS; cases h <;> first | rfl | (simp at hS; tauto))
      (by intro p a q h; cases h <;> rfl) env argv params q b h a v hl
    simp only [List.contains_cons, List.contains_nil, Bool.or_false, Bool.or_eq_true,
      beq_iff_eq] at hS
    cases hW <;> first
      | (simp only at hq; rw [hq]; assumption)
      | (exfalso; rcases hS with rfl | rfl <;> simp_all)
  · intro a v hl
    obtain ⟨pm, qm, hS, hW, hq⟩ := parse_last (fun p => p.n_parts) _
      (by intro env p a v q h hS; cases h <;> first | rfl | (simp at hS; tauto))
      (by intro p a q h; cases h <;> rfl) env argv params q b h a v hl
    simp only [List.contains_cons, List.contains_nil, Bool.or_false, Bool.or_eq_true,
      beq_iff_eq] at hS
    cases hW <;> first
      | (simp only at hq; rw [hq]; assumption)
      | (exfalso; subst hS; simp_all)
  · intro a v hl
    obtain ⟨pm, qm, hS, hW, hq⟩ := parse_last (fun p => p.model) _
      (by intro env p a v q h hS; cases h <;> first | rfl | (simp at hS; tauto))
      (by intro p a q h; cases h <;> rfl) env argv params q b h a v hl
    simp only [List.contains_cons, List.contains_nil, Bool.or_false, Bool.or_eq_true,
      beq_iff_eq] at hS
    cases hW <;> first
      | (simp only at hq; rw [hq]; done)
      | (exfalso; rcases hS with rfl | rfl <;> simp_all)
  · intro a v hl hp
    obtain ⟨pm, qm, hS, hW, hq⟩ := parse_last (fun p => p.prompt) _
      (by intro env p a v q h hS; cases h <;> first | rfl | (simp at hS; tauto))
      (by intro p a q h; cases h <;> rfl) env argv params q b h a v hl
    cases hW <;> first
      | (simp only at hq; rw [hq]; done)
      | (exfalso; rcases hp with rfl | rfl <;> simp_all)

/-- Witness of C19, amended: `-s 1 --seed 2` leaves the seed 2. -/
theorem gpt_params_parse_last_occurrence_witness :
    stoi "2" = .ok ({ default_threads sample_env sample_params with seed := 2 }
      : gpt_params).seed :=
  (gpt_params_parse_last_occurrence sample_env ["main", "-s", "1", "--seed", "2"]
    sample_params { default_threads sample_env sample_params with seed := 2 } true
    (by decide)).1 "--seed" "2" (by decide)

/-- Counterexample to C19: in `-p a -p b -f a.txt` the flag `-p` occurs twice and its
last occurrence has the value `b`, but the final prompt is `bhello`. -/
theorem gpt_params_parse_last_occurrence_counterexample :
    last_occurrence (fun x => ["-p", "--prompt"].contains x)
        ["-p", "a", "-p", "b", "-f", "a.txt"] = some ("-p", "b") ∧
    ∃ q, gpt_params_parse sample_env ["main", "-p", "a", "-p", "b", "-f", "a.txt"]
        sample_params = .returned true q ∧ q.prompt = "bhello" ∧ q.prompt ≠ "b" :=
  ⟨by decide, _, rfl, by decide, by decide⟩

/-! ## The argument after a flag -/

/-- C13: at a flag position (reached after arguments that leave the record `q0`),
a value-taking flag `a` consumes exactly the next argument `v`: `v` is handed to
the flag's conversion, whatever string it is, and the loop goes on with the
arguments after `v`; so `-p -h` and `-p --bogus` set the prompt to `-h` and
`--bogus` and return. A boolean flag consumes nothing: the loop goes on with
the very next argument, so `-i -h` prints the usage text and exits at `-h`. -/
theorem gpt_params_parse_consumption (env : Env) (prog : String) (before after : List String)
    (params q0 : gpt_params) (b : Bool)
    (hbefore : gpt_params_parse env (prog :: before) params = .returned b q0) :
    (∀ a v : String, takes_value a = true →
      ∃ k, dispatch env prog q0 a = .value k ∧
        (∀ q, k v = .ok q →
          gpt_params_parse env (prog :: (before ++ a :: v :: after)) params
            = parse_args env prog after q) ∧
        (∀ e, k v = .error (.threw e) →
          gpt_params_parse env (prog :: (before ++ a :: v :: after)) params = .threw e) ∧
        (k v = .error .undefined →
          gpt_params_parse env (prog :: (before ++ a :: v :: after)) params = .undefined)) ∧
    (∀ v : String,
      gpt_params_parse env (prog :: (before ++ "-p" :: v :: after)) params
        = parse_args env prog after { q0 with prompt := v }) ∧
    (∀ a : String, is_toggle a = true →
      ∃ q, dispatch env prog q0 a = .flag q ∧
        gpt_params_parse env (prog :: (before ++ a :: after)) params
          = parse_args env prog after q) ∧
    gpt_params_parse env (prog :: (before ++ ["-p", "-h"])) params
      = .returned true { q0 with prompt := "-h" } ∧
    gpt_params_parse env (prog :: (before ++ ["-p", "--bogus"])) params
      = .returned true { q0 with prompt := "--bogus" } ∧
    gpt_params_parse env (prog :: (before ++ ["-i", "-h"])) params
      = .exited 0 (gpt_print_usage env prog { q0 with interactive := true })
          { q0 with interactive := true } := by
  simp only [gpt_params_parse, List.headD_cons, List.tail_cons] at hbefore ⊢
  have hp : ∀ q : gpt_params, dispatch env prog q "-p"
      = .value fun v => .ok { q with prompt := v } := by
    intro q; simp [dispatch]
  have hi : ∀ q : gpt_params, dispatch env prog q "-i"
      = .flag { q with interactive := true } := by
    intro q; simp [dispatch]
  refine ⟨?_, ?_, ?_, ?_, ?_, ?_⟩
  · intro a v ha
    obtain ⟨k, hk⟩ := dispatch_of_takes_value env prog q0 a ha
    refine ⟨k, hk, ?_, ?_, ?_⟩
    · intro q hq
      rw [parse_args_append hbefore, parse_args_value_ok hk hq]
    · intro e he
      rw [parse_args_append hbefore, parse_args_value_threw hk he]
    · intro hu
      rw [parse_args_append hbefore, parse_args_value_undefined hk hu]
  · intro v
    rw [parse_args_append hbefore, parse_args_value_ok (hp q0) rfl]
  · intro a ha
    obtain ⟨q, hq⟩ := dispatch_of_is_toggle env prog q0 a ha
    exact ⟨q, hq, by rw [parse_args_append hbefore, parse_args_flag hq]⟩
  · rw [parse_args_append hbefore, parse_args_value_ok (hp q0) rfl]
    rfl
  · rw [parse_args_append hbefore, parse_args_value_ok (hp q0) rfl]
    rfl
  · rw [parse_args_append hbefore, parse_args_flag (hi q0)]
    exact parse_args_exit (dispatch_of_is_help env prog _ "-h" rfl) []

/-- Witness of C13: after `-s 7`, `-p -h` sets the prompt to `-h`. -/
theorem gpt_params_parse_consumption_witness :
    gpt_params_parse sample_env ["main", "-s", "7", "-p", "-h"] sample_params
      = .returned true
          { default_threads sample_env sample_params with seed := 7, prompt := "-h" } :=
  (gpt_params_parse_consumption sample_env "main" ["-s", "7"] [] sample_params
    { default_threads sample_env sample_params with seed := 7 } true (by decide)).2.2.2.1

/-! ## The indices read -/

theorem dangling_nil (env : Env) (argv0 : String) (p : gpt_params) :
    ¬ Dangling env argv0 [] p := by
  rintro ⟨before, a, b, q0, h, _, _⟩
  simp at h

theorem dangling_flag {env : Env} {argv0 arg : String} {p q : gpt_params}
    (hd : dispatch env argv0 p arg = .flag q) (rest : List String) :
    Dangling env argv0 (arg :: rest) p ↔ Dangling env argv0 rest q := by
  constructor
  · rintro ⟨before, a, b, q0, h, ha, hp⟩
    cases before with
    | nil =>
      simp only [List.nil_append, List.cons.injEq] at h
      rw [← h.1, (dispatch_flag_inv hd).1] at ha
      cases ha
    | cons x bs =>
      simp only [List.cons_append, List.cons.injEq] at h
      obtain ⟨rfl, rfl⟩ := h
      rw [parse_args_flag hd] at hp
      exact ⟨bs, a, b, q0, rfl, ha, hp⟩
  · rintro ⟨before, a, b, q0, h, ha, hp⟩
    refine ⟨arg :: before, a, b, q0, by simp [h], ha, ?_⟩
    rw [parse_args_flag hd]
    exact hp

theorem dangling_exit {env : Env} {argv0 arg err : String} {p : gpt_params} {status : Int}
    (hd : dispatch env argv0 p arg = .exit err status) (rest : List String) :
    ¬ Dangling env argv0 (arg :: rest) p := by
  rintro ⟨before, a, b, q0, h, ha, hp⟩
  cases before with
  | nil =>
    simp only [List.nil_append, List.cons.injEq] at h
    rw [← h.1, (dispatch_exit_inv hd).1] at ha
    cases ha
  | cons x bs =>
    simp only [List.cons_append, List.cons.injEq] at h
    obtain ⟨rfl, rfl⟩ := h
    rw [parse_args_exit hd] at hp
    cases hp

theorem dangling_value_last {env : Env} {argv0 arg : String} {p : gpt_params}
    {k : String → Except Failure gpt_params} (hd : dispatch env argv0 p arg = .value k) :
    Dangling env argv0 [arg] p :=
  ⟨[], arg, true, p, rfl, (dispatch_value_inv hd).1, rfl⟩

theorem dangling_value {env : Env} {argv0 arg : String} {p : gpt_params}
    {k : String → Except Failure gpt_params} (hd : dispatch env argv0 p arg = .value k)
    (v : String) (rest : List String) :
    Dangling env argv0 (arg :: v :: rest) p ↔
      ∃ q, k v = .ok q ∧ Dangling env argv0 rest q := by
  constructor
  · rintro ⟨before, a, b, q0, h, ha, hp⟩
    match before, h, hp with
    | [], h, _ => simp at h
    | [x], h, hp =>
      simp only [List.cons_append, List.nil_append, List.cons.injEq] at h
      obtain ⟨rfl, _, _⟩ := h
      rw [parse_args_value_last hd] at hp
      cases hp
    | x :: y :: bs, h, hp =>
      simp only [List.cons_append, List.cons.injEq] at h
      obtain ⟨rfl, rfl, rfl⟩ := h
      cases hk : k v with
      | ok q =>
        rw [parse_args_value_ok hd hk] at hp
        exact ⟨q, rfl, bs, a, b, q0, rfl, ha, hp⟩
      | error e =>
        cases e with
        | threw e => rw [parse_args_value_threw hd hk] at hp; cases hp
        | undefined => rw [parse_args_value_undefined hd hk] at hp; cases hp
  · rintro ⟨q, hk, before, a, b, q0, h, ha, hp⟩
    refine ⟨arg :: v :: before, a, b, q0, by simp [h], ha, ?_⟩
    rw [parse_args_value_ok hd hk]
    exact hp

theorem parse_indexed_spec (env : Env) (argv : List String) :
    ∀ (fuel i : Nat) (p : gpt_params), 1 ≤ i → argv.length ≤ i + fuel →
      ∃ reads, parse_indexed env argv (fuel + 1) i p
          = some (reads, parse_args env (argv.headD "") (argv.drop i) p) ∧
        (∀ j ∈ reads, j ≤ argv.length) ∧
        (0 ∈ reads ↔ ∃ status err q,
          parse_args env (argv.headD "") (argv.drop i) p = .exited status err q) ∧
        ((∃ j ∈ reads, argv.length ≤ j) ↔ Dangling env (argv.headD "") (argv.drop i) p) := by
  intro fuel
  induction fuel with
  | zero =>
    intro i p _ hi
    have hlt : ¬ i < argv.length := by omega
    refine ⟨[], ?_, by simp, ?_, ?_⟩
    · rw [parse_indexed, if_neg hlt, List.drop_eq_nil_of_le (by omega)]
      rfl
    · rw [List.drop_eq_nil_of_le (by omega)]
      simp [parse_args]
    · rw [List.drop_eq_nil_of_le (by omega)]
      simp [dangling_nil]
  | succ fuel ih =>
    intro i p h1 hi
    by_cases hlt : i < argv.length
    · rw [parse_indexed, if_pos hlt, List.getD_eq_getElem _ _ hlt,
        List.drop_eq_getElem_cons hlt]
      cases hd : dispatch env (argv.headD "") p argv[i] with
      | flag q =>
        obtain ⟨reads, hr, hb, hz, hiff⟩ := ih (i + 1) q (by omega) (by omega)
        refine ⟨i :: reads, ?_, ?_, ?_, ?_⟩
        · simp only [hr, Option.map_some', parse_args_flag hd]
        · intro j hj
          rcases List.mem_cons.mp hj with rfl | hj
          · omega
          · exact hb j hj
        · rw [parse_args_flag hd, ← hz]
          constructor
          · intro h0
            rcases List.mem_cons.mp h0 with h0 | h0
            · omega
            · exact h0
          · intro h0
            exact List.mem_cons_of_mem _ h0
        · rw [dangling_flag hd, ← hiff]
          constructor
          · rintro ⟨j, hj, hge⟩
            rcases List.mem_cons.mp hj with rfl | hj
            · omega
            · exact ⟨j, hj, hge⟩
          · rintro ⟨j, hj, hge⟩
            exact ⟨j, List.mem_cons_of_mem _ hj, hge⟩
      | exit err status =>
        refine ⟨[i, 0], ?_, ?_, ?_, ?_⟩
        · simp only [parse_args_exit hd]
        · intro j hj
          simp only [List.mem_cons, List.mem_singleton, List.not_mem_nil, or_false] at hj
          omega
        · rw [parse_args_exit hd]
          constructor
          · intro _
            exact ⟨status, err, p, rfl⟩
          · intro _
            simp
        · constructor
          · rintro ⟨j, hj, hge⟩
            simp only [List.mem_cons, List.mem_singleton, List.not_mem_nil, or_false] at hj
            omega
          · intro h
            exact absurd h (dangling_exit hd _)
      | value k =>
        simp only
        by_cases hlt2 : i + 1 < argv.length
        · rw [if_pos hlt2, List.getD_eq_getElem _ _ hlt2, List.drop_eq_getElem_cons hlt2]
          rw [dangling_value hd]
          cases hk : k argv[i + 1] with
          | ok q =>
            obtain ⟨reads, hr, hb, hz, hiff⟩ := ih (i + 2) q (by omega) (by omega)
            refine ⟨i :: (i + 1) :: reads, ?_, ?_, ?_, ?_⟩
            · simp only [hr, Option.map_some', parse_args_value_ok hd hk]
            · intro j hj
              simp only [List.mem_cons] at hj
              rcases hj with rfl | rfl | hj
              · omega
              · omega
              · exact hb j hj
            · rw [parse_args_value_ok hd hk, ← hz]
              constructor
              · intro h0
                simp only [List.mem_cons] at h0
                rcases h0 with h0 | h0 | h0
                · omega
                · omega
                · exact h0
              · intro h0
                simp [h0]
            · constructor
              · rintro ⟨j, hj, hge⟩
                simp only [List.mem_cons] at hj
                rcases hj with rfl | rfl | hj
                · omega
                · omega
                · exact ⟨q, rfl, hiff.mp ⟨j, hj, hge⟩⟩
              · rintro ⟨q2, hq2, hdang⟩
                cases hq2
                obtain ⟨j, hj, hge⟩ := hiff.mpr hdang
                exact ⟨j, by simp [hj], hge⟩
          | error e =>
            cases e with
            | threw e =>
              refine ⟨[i, i + 1], ?_, ?_, ?_, ?_⟩
              · simp only [parse_args_value_threw hd hk]
              · intro j hj
                simp only [List.mem_cons, List.mem_singleton, List.not_mem_nil, or_false] at hj
                omega
              · rw [parse_args_value_threw hd hk]
                constructor
                · intro h0
                  simp only [List.mem_cons, List.mem_singleton, List.not_mem_nil,
                    or_false] at h0
                  omega
                · rintro ⟨_, _, _, h⟩
                  cases h
              · constructor
                · rintro ⟨j, hj, hge⟩
                  simp only [List.mem_cons, List.mem_singleton, List.not_mem_nil,
                    or_false] at hj
                  omega
                · rintro ⟨q2, hq2, _⟩
                  cases hq2
            | undefined =>
              refine ⟨[i, i + 1], ?_, ?_, ?_, ?_⟩
              · simp only [parse_args_value_undefined hd hk]
              · intro j hj
                simp only [List.mem_cons, List.mem_singleton, List.not_mem_nil, or_false] at hj
                omega
              · rw [parse_args_value_undefined hd hk]
                constructor
                · intro h0
                  simp only [List.mem_cons, List.mem_singleton, List.not_mem_nil,
                    or_false] at h0
                  omega
                · rintro ⟨_, _, _, h⟩
                  cases h
              · constructor
                · rintro ⟨j, hj, hge⟩
                  simp only [List.mem_cons, List.mem_singleton, List.not_mem_nil,
                    or_false] at hj
                  omega
                · rintro ⟨q2, hq2, _⟩
                  cases hq2
        · rw [if_neg hlt2, List.drop_eq_nil_of_le (by omega)]
          refine ⟨[i, i + 1], ?_, ?_, ?_, ?_⟩
          · simp only [parse_args_value_last hd]
          · intro j hj
            simp only [List.mem_cons, List.mem_singleton, List.not_mem_nil, or_false] at hj
            omega
          · rw [parse_args_value_last hd]
            constructor
            · intro h0
              simp only [List.mem_cons, List.mem_singleton, List.not_mem_nil,
                or_false] at h0
              omega
            · rintro ⟨_, _, _, h⟩
              cases h
          · constructor
            · intro _
              exact dangling_value_last hd
            · intro _
              exact ⟨i + 1, by simp, by omega⟩
    · refine ⟨[], ?_, by simp, ?_, ?_⟩
      · rw [parse_indexed, if_neg hlt, List.drop_eq_nil_of_le (by omega)]
        rfl
      · rw [List.drop_eq_nil_of_le (by omega)]
        simp [parse_args]
      · rw [List.drop_eq_nil_of_le (by omega)]
        simp [dangling_nil]

theorem ends_at_flag_position_cons_flag (a : String) (rest : List String)
    (h : takes_value a = false) :
    ends_at_flag_position (a :: rest) = ends_at_flag_position rest := by
  cases rest with
  | nil => simp [ends_at_flag_position, h]
  | cons v r => simp [ends_at_flag_position, h]

theorem run_ends_at_flag_position {env : Env} {argv0 : String} {args : List String}
    {p : gpt_params} {o : Outcome} (h : Run env argv0 args p o) :
    ∀ (b : Bool) (q : gpt_params), o = .returned b q →
      ends_at_flag_position args = true := by
  induction h with
  | done p => intro b q _; rfl
  | flag hd _ ih =>
    intro b q ho
    rw [ends_at_flag_position_cons_flag _ _ (dispatch_flag_inv hd).1]
    exact ih b q ho
  | value hd hk _ ih =>
    intro b q ho
    simp only [ends_at_flag_position, (dispatch_value_inv hd).1, if_true]
    exact ih b q ho
  | value_threw hd hk => intro b q ho; cases ho
  | value_undefined hd hk => intro b q ho; cases ho
  | value_missing hd => intro b q ho; cases ho
  | exit hd => intro b q ho; cases ho

theorem ends_at_flag_position_append_singleton (a : String) (before : List String) :
    ends_at_flag_position before = true →
      ends_at_flag_position (before ++ [a]) = !takes_value a := by
  induction before using ends_at_flag_position.induct with
  | case1 => intro _; simp [ends_at_flag_position]
  | case2 x =>
    intro h
    have hx : takes_value x = false := by simpa [ends_at_flag_position] using h
    simp [ends_at_flag_position, hx]
  | case3 x v rest hx ih =>
    intro h
    simp only [ends_at_flag_position, hx, if_true] at h
    simp only [List.cons_append, ends_at_flag_position, hx, if_true]
    exact ih h
  | case4 x v rest hx ih =>
    intro h
    have hx2 : takes_value x = false := by simpa using hx
    simp only [ends_at_flag_position, hx2, Bool.false_eq_true, if_false] at h
    rw [List.cons_append, ends_at_flag_position_cons_flag _ _ hx2]
    exact ih h

theorem dangling_ends_at_flag_position {env : Env} {argv0 : String} {args : List String}
    {p : gpt_params} (h : Dangling env argv0 args p) :
    ends_at_flag_position args = false := by
  obtain ⟨before, a, b, q0, rfl, ha, hp⟩ := h
  have hb := run_ends_at_flag_position (run_parse_args env argv0 before p) b q0 hp
  rw [ends_at_flag_position_append_singleton a before hb, ha]
  rfl

/-- C14, amended: with enough fuel the indexed loop ends, with the outcome of
`gpt_params_parse`. Every index at which `argv` is read is at most `argc`. Index
0 is read exactly when the parser exits (the usage printer reads `argv[0]`). An
index `>= argc` is read exactly when the loop reaches, the arguments before
being parsed to their end, a value-taking flag that is the last argument. When
no value-taking flag at a flag position lacks a following argument, every index
read lies in `0..argc-1`, and in `1..argc-1` when the parser does not exit. -/
theorem gpt_params_parse_indexed_reads (env : Env) (argv : List String)
    (params : gpt_params) (fuel : Nat) (hfuel : argv.length < fuel) :
    ∃ reads, gpt_params_parse_indexed env argv fuel params
        = some (reads, gpt_params_parse env argv params) ∧
      (∀ j ∈ reads, j ≤ argv.length) ∧
      (0 ∈ reads ↔ ∃ status err q, gpt_params_parse env argv params = .exited status err q) ∧
      ((∃ j ∈ reads, argv.length ≤ j) ↔
        ∃ (before : List String) (a : String) (b : Bool) (q0 : gpt_params),
          argv.tail = before ++ [a] ∧ takes_value a = true ∧
            gpt_params_parse env (argv.headD "" :: before) params = .returned b q0) ∧
      (ends_at_flag_position argv.tail = true → ∀ j ∈ reads, j < argv.length) ∧
      (ends_at_flag_position argv.tail = true →
        (¬ ∃ status err q, gpt_params_parse env argv params = .exited status err q) →
        ∀ j ∈ reads, 1 ≤ j ∧ j < argv.length) := by
  obtain ⟨f, rfl⟩ : ∃ f, fuel = f + 1 := ⟨fuel - 1, by omega⟩
  obtain ⟨reads, hr, hb, hz, hiff⟩ :=
    parse_indexed_spec env argv f 1 (default_threads env params) le_rfl (by omega)
  have hdrop : argv.drop 1 = argv.tail := by cases argv <;> rfl
  rw [hdrop] at hr hz hiff
  have hlt : ends_at_flag_position argv.tail = true → ∀ j ∈ reads, j < argv.length := by
    intro hends j hj
    by_contra hge
    have hd := hiff.mp ⟨j, hj, by omega⟩
    rw [dangling_ends_at_flag_position hd] at hends
    cases hends
  refine ⟨reads, hr, hb, hz, hiff, hlt, ?_⟩
  intro hends hne j hj
  refine ⟨?_, hlt hends j hj⟩
  by_contra h0
  have hj0 : j = 0 := by omega
  subst hj0
  exact hne (hz.mp hj)

/-- Witness of C14, amended: `-s 7 -i` reads the indices 1, 2, 3 and returns. -/
theorem gpt_params_parse_indexed_reads_witness :
    ∃ reads, gpt_params_parse_indexed sample_env ["main", "-s", "7", "-i"] 5 sample_params
        = some (reads, gpt_params_parse sample_env ["main", "-s", "7", "-i"] sample_params) ∧
      (∀ j ∈ reads, j ≤ ["main", "-s", "7", "-i"].length) ∧
      (0 ∈ reads ↔ ∃ status err q,
        gpt_params_parse sample_env ["main", "-s", "7", "-i"] sample_params
          = .exited status err q) ∧
      ((∃ j ∈ reads, ["main", "-s", "7", "-i"].length ≤ j) ↔
        ∃ (before : List String) (a : String) (b : Bool) (q0 : gpt_params),
          ["main", "-s", "7", "-i"].tail = before ++ [a] ∧ takes_value a = true ∧
            gpt_params_parse sample_env
              (["main", "-s", "7", "-i"].headD "" :: before) sample_params
              = .returned b q0) ∧
      (ends_at_flag_position ["main", "-s", "7", "-i"].tail = true →
        ∀ j ∈ reads, j < ["main", "-s", "7", "-i"].length) ∧
      (ends_at_flag_position ["main", "-s", "7", "-i"].tail = true →
        (¬ ∃ status err q,
          gpt_params_parse sample_env ["main", "-s", "7", "-i"] sample_params
            = .exited status err q) →
        ∀ j ∈ reads, 1 ≤ j ∧ j < ["main", "-s", "7", "-i"].length) :=
  gpt_params_parse_indexed_reads sample_env ["main", "-s", "7", "-i"] sample_params 5
    (by decide)

/-- Counterexample to C14. In `-h -s` the value-taking flag `-s` occupies the last
flag position with no argument after it, but the parser exits at `-h`: it reads
the indices 1 and 0 only, and `argc` is 3. In `-h` alone no value-taking flag
lacks an argument, but index 0 is read (by the usage printer), which is not in
`1..argc-1`. -/
theorem gpt_params_parse_indexed_reads_counterexample :
    ((ends_at_flag_position ["-h"] = true ∧ takes_value "-s" = true ∧
        ends_at_flag_position ["-h", "-s"] = false) ∧
      gpt_params_parse_indexed sample_env ["main", "-h", "-s"] 4 sample_params
        = some ([1, 0], gpt_params_parse sample_env ["main", "-h", "-s"] sample_params) ∧
      ¬ ∃ j ∈ [1, 0], ["main", "-h", "-s"].length ≤ j) ∧
    (ends_at_flag_position ["-h"] = true ∧
      gpt_params_parse_indexed sample_env ["main", "-h"] 3 sample_params
        = some ([1, 0], gpt_params_parse sample_env ["main", "-h"] sample_params) ∧
      ¬ ∀ j ∈ [1, 0], 1 ≤ j ∧ j ≤ ["main", "-h"].length - 1) :=
  ⟨⟨by decide, rfl, by decide⟩, by decide, rfl, by decide⟩

/-! ## Values that are not integers -/

theorem takeWhile_isdigit_nil (d : Char) (rest : List Char) (h : d.isDigit = false) :
    (d :: rest).takeWhile isdigit = [] := by
  rw [List.takeWhile_cons_of_neg]
  rw [isdigit_eq_isDigit, h]
  simp

theorem strip_sign_no_digit (cs : List Char) (h : digit_after_sign cs = false) :
    (strip_sign cs).2.takeWhile isdigit = [] := by
  match cs, h with
  | [], _ => rfl
  | ['-'], _ => rfl
  | ['+'], _ => rfl
  | '-' :: d :: rest, h => exact takeWhile_isdigit_nil d rest h
  | '+' :: d :: rest, h => exact takeWhile_isdigit_nil d rest h
  | d :: rest, h =>
    by_cases hm : d = '-'
    · subst hm
      cases rest with
      | nil => rfl
      | cons e r => exact takeWhile_isdigit_nil e r h
    · by_cases hp : d = '+'
      · subst hp
        cases rest with
        | nil => rfl
        | cons e r => exact takeWhile_isdigit_nil e r h
      · have hd : d.isDigit = false := by
          unfold digit_after_sign at h
          split at h
          · next heq => simp at heq; exact absurd heq.1 hm
          · next heq => simp at heq; exact absurd heq.1 hp
          · next heq => simp at heq; rw [heq.1]; exact h
          · next heq => simp at heq
        have hs : strip_sign (d :: rest) = (false, d :: rest) := by
          unfold strip_sign
          split
          · next heq => simp at heq; exact absurd heq.1 hm
          · next heq => simp at heq; exact absurd heq.1 hp
          · rfl
        rw [hs]
        exact takeWhile_isdigit_nil d rest hd

theorem stoi_no_digit (v : String) (h : has_leading_digit v = false) :
    stoi v = .error .invalid_argument := by
  unfold stoi
  simp only [strip_sign_no_digit _ h, if_true]

theorem stoi_digits_out_of_range (neg : Bool) (ds : List Char) (hne : ds ≠ [])
    (hd : ds.all Char.isDigit = true)
    (hr : ¬ in_int32 (if neg then -(numeral_value ds : Int) else numeral_value ds)) :
    (let v : Int := if neg then -(digits_value (ds.takeWhile isdigit) : Int)
        else (digits_value (ds.takeWhile isdigit) : Int)
     if ds.takeWhile isdigit = [] then (.error .invalid_argument : Except Exception Int)
     else if v < -2 ^ 31 ∨ 2 ^ 31 - 1 < v then .error .out_of_range else .ok v)
     = .error .out_of_range := by
  rw [takeWhile_isdigit_self ds hd, digits_value_eq_numeral_value]
  simp only [hne, if_false]
  unfold in_int32 at hr
  rw [if_pos (by omega)]

theorem stoi_literal_out_of_range (v : String) (h : is_decimal_literal v = true)
    (hr : ¬ in_int32 (literal_value v)) : stoi v = .error .out_of_range := by
  unfold is_decimal_literal at h
  unfold stoi
  split at h
  · next ds hv =>
    simp only [Bool.and_eq_true, Bool.not_eq_true', List.isEmpty_eq_false] at h
    simp only [literal_value, hv] at hr ⊢
    have := stoi_digits_out_of_range true ds (by simpa using h.1) h.2 (by simpa using hr)
    simpa [List.dropWhile, isspace, strip_sign] using this
  · next ds hv =>
    simp only [Bool.and_eq_true, Bool.not_eq_true', List.isEmpty_eq_false] at h
    simp only [literal_value, hv] at hr ⊢
    have := stoi_digits_out_of_range false ds (by simpa using h.1) h.2 (by simpa using hr)
    simpa [List.dropWhile, isspace, strip_sign] using this
  · next ds hm hp =>
    simp only [Bool.and_eq_true, Bool.not_eq_true', List.isEmpty_eq_false] at h
    have hne : v.data ≠ [] := by simpa using h.1
    obtain ⟨c, rest, hv⟩ := List.exists_cons_of_ne_nil hne
    have hc : c.isDigit = true := by
      have := h.2; rw [hv] at this; simp at this; exact this.1
    have hsp := not_isspace_of_isDigit c hc
    have hcm : c ≠ '-' := by rintro rfl; exact hm rest hv
    have hcp : c ≠ '+' := by rintro rfl; exact hp rest hv
    have h1 : List.dropWhile isspace v.data = v.data := by
      rw [hv, List.dropWhile_cons_of_neg (by simp [hsp])]
    have h2 : strip_sign v.data = (false, v.data) := by
      rw [hv]; unfold strip_sign; split
      · next heq => simp at heq; exact absurd heq.1 hcm
      · next heq => simp at heq; exact absurd heq.1 hcp
      · rfl
    have h3 : literal_value v = (numeral_value v.data : Int) := by
      unfold literal_value
      split
      · next heq => exact absurd heq (hm _)
      · next heq => exact absurd heq (hp _)
      · rfl
    rw [h3] at hr
    have := stoi_digits_out_of_range false v.data hne h.2 (by simpa using hr)
    simpa [h1, h2] using this

theorem takeWhile_isdigit_append (ds junk : List Char) (hd : ds.all Char.isDigit = true)
    (hj : ∀ c, junk.head? = some c → c.isDigit = false) :
    (ds ++ junk).takeWhile isdigit = ds := by
  induction ds with
  | nil =>
    cases junk with
    | nil => rfl
    | cons c r => exact takeWhile_isdigit_nil c r (hj c rfl)
  | cons d ds ih =>
    simp only [List.all_cons, Bool.and_eq_true] at hd
    rw [List.cons_append, List.takeWhile_cons_of_pos (by rw [isdigit_eq_isDigit]; exact hd.1),
      ih hd.2]

theorem stoi_congr (s t : String)
    (h1 : (strip_sign (s.data.dropWhile isspace)).1 = (strip_sign (t.data.dropWhile isspace)).1)
    (h2 : (strip_sign (s.data.dropWhile isspace)).2.takeWhile isdigit
      = (strip_sign (t.data.dropWhile isspace)).2.takeWhile isdigit) :
    stoi s = stoi t := by
  unfold stoi
  simp only [h1, h2]

theorem strip_sign_of_digit (c : Char) (rest : List Char) (hc : c.isDigit = true) :
    strip_sign (List.dropWhile isspace (c :: rest)) = (false, c :: rest) := by
  have hsp := not_isspace_of_isDigit c hc
  rw [List.dropWhile_cons_of_neg (by simp [hsp])]
  have hcm : c ≠ '-' := by rintro rfl; revert hc; decide
  have hcp : c ≠ '+' := by rintro rfl; revert hc; decide
  unfold strip_sign
  split
  · next heq => simp at heq; exact absurd heq.1 hcm
  · next heq => simp at heq; exact absurd heq.1 hcp
  · rfl

/-- Characters after a decimal literal that do not start with a digit are ignored by
`std::stoi`. -/
theorem stoi_append_junk (lit junk : String) (hl : is_decimal_literal lit = true)
    (hj : ∀ c, junk.data.head? = some c → c.isDigit = false) :
    stoi (lit ++ junk) = stoi lit := by
  unfold is_decimal_literal at hl
  apply stoi_congr
  · split at hl
    · next ds hv => simp [String.data_append, hv, List.dropWhile, isspace, strip_sign]
    · next ds hv => simp [String.data_append, hv, List.dropWhile, isspace, strip_sign]
    · next ds hm hp =>
      simp only [Bool.and_eq_true, Bool.not_eq_true', List.isEmpty_eq_false] at hl
      have hne : lit.data ≠ [] := by simpa using hl.1
      obtain ⟨c, rest, hv⟩ := List.exists_cons_of_ne_nil hne
      have hc : c.isDigit = true := by
        have := hl.2; rw [hv] at this; simp at this; exact this.1
      rw [String.data_append, hv, List.cons_append, strip_sign_of_digit c _ hc,
        strip_sign_of_digit c _ hc]
  · split at hl
    · next ds hv =>
      simp only [Bool.and_eq_true, Bool.not_eq_true', List.isEmpty_eq_false] at hl
      simp only [String.data_append, hv, List.cons_append]
      have h1 : ∀ x : List Char, strip_sign (List.dropWhile isspace ('-' :: x)) = (true, x) := by
        intro x; simp [List.dropWhile, isspace, strip_sign]
      rw [h1, h1, takeWhile_isdigit_append ds _ hl.2 hj, takeWhile_isdigit_self ds hl.2]
    · next ds hv =>
      simp only [Bool.and_eq_true, Bool.not_eq_true', List.isEmpty_eq_false] at hl
      simp only [String.data_append, hv, List.cons_append]
      have h1 : ∀ x : List Char, strip_sign (List.dropWhile isspace ('+' :: x)) = (false, x) := by
        intro x; simp [List.dropWhile, isspace, strip_sign]
      rw [h1, h1, takeWhile_isdigit_append ds _ hl.2 hj, takeWhile_isdigit_self ds hl.2]
    · next ds hm hp =>
      simp only [Bool.and_eq_true, Bool.not_eq_true', List.isEmpty_eq_false] at hl
      have hne : lit.data ≠ [] := by simpa using hl.1
      obtain ⟨c, rest, hv⟩ := List.exists_cons_of_ne_nil hne
      have hall := hl.2
      have hc : c.isDigit = true := by
        have := hl.2; rw [hv] at this; simp at this; exact this.1
      rw [String.data_append, hv, List.cons_append, strip_sign_of_digit c _ hc,
        strip_sign_of_digit c _ hc]
      rw [hv] at hall
      show ((c :: rest) ++ junk.data).takeWhile isdigit = (c :: rest).takeWhile isdigit
      rw [takeWhile_isdigit_append _ _ hall hj, takeWhile_isdigit_self _ hall]

/-- C15, amended: at a flag position (reached after arguments that parse to their
end), an integer-valued flag whose value has no decimal digit after optional
leading white space and an optional sign (such as `abc` or the empty string)
makes `std::invalid_argument` leave the parser, and one whose value is a decimal
literal outside the 32-bit signed range makes `std::out_of_range` leave it: the
parser neither returns nor exits, whatever follows. A value made of a decimal
literal followed by characters that do not start with a digit (such as `12abc`)
is treated exactly as the literal alone: when the literal is within the range
it is converted and the loop goes on with the next argument, and when it is
not, `std::out_of_range` leaves the parser. -/
theorem gpt_params_parse_malformed_int (env : Env) (prog : String)
    (before after : List String) (params q0 : gpt_params) (b : Bool) (a v : String)
    (hbefore : gpt_params_parse env (prog :: before) params = .returned b q0)
    (ha : int_flags.contains a = true) :
    (has_leading_digit v = false →
      gpt_params_parse env (prog :: (before ++ a :: v :: after)) params
        = .threw .invalid_argument) ∧
    (is_decimal_literal v = true → ¬ in_int32 (literal_value v) →
      gpt_params_parse env (prog :: (before ++ a :: v :: after)) params
        = .threw .out_of_range) ∧
    (∀ junk : String, is_decimal_literal v = true →
      (∀ c, junk.data.head? = some c → c.isDigit = false) →
      gpt_params_parse env (prog :: (before ++ a :: (v ++ junk) :: after)) params
        = gpt_params_parse env (prog :: (before ++ a :: v :: after)) params ∧
      (in_int32 (literal_value v) →
        ∃ q, gpt_params_parse env (prog :: (before ++ a :: (v ++ junk) :: after)) params
          = parse_args env prog after q) ∧
      (¬ in_int32 (literal_value v) →
        gpt_params_parse env (prog :: (before ++ a :: (v ++ junk) :: after)) params
          = .threw .out_of_range)) := by
  simp only [gpt_params_parse, List.headD_cons, List.tail_cons] at hbefore ⊢
  obtain ⟨set, hd⟩ := dispatch_int_flag env prog q0 a ha
  refine ⟨?_, ?_, ?_⟩
  · intro hv
    rw [parse_args_append hbefore]
    exact parse_args_value_threw hd (by simp [convert, stoi_no_digit v hv]) after
  · intro hl hr
    rw [parse_args_append hbefore]
    exact parse_args_value_threw hd (by simp [convert, stoi_literal_out_of_range v hl hr]) after
  · intro junk hl hj
    have hs := stoi_append_junk v junk hl hj
    refine ⟨?_, ?_, ?_⟩
    · rw [parse_args_append hbefore, parse_args_append hbefore]
      cases hv : stoi v with
      | ok n =>
        have hk1 : (fun x => convert (stoi x) set) (v ++ junk) = .ok (set n) := by
          simp [convert, hs, hv]
        have hk2 : (fun x => convert (stoi x) set) v = .ok (set n) := by
          simp [convert, hv]
        rw [parse_args_value_ok hd hk1, parse_args_value_ok hd hk2]
      | error e =>
        have hk1 : (fun x => convert (stoi x) set) (v ++ junk) = .error (.threw e) := by
          simp [convert, hs, hv]
        have hk2 : (fun x => convert (stoi x) set) v = .error (.threw e) := by
          simp [convert, hv]
        rw [parse_args_value_threw hd hk1, parse_args_value_threw hd hk2]
    · intro hr
      refine ⟨set (literal_value v), ?_⟩
      rw [parse_args_append hbefore]
      exact parse_args_value_ok hd
        (by simp [convert, hs, stoi_decimal_literal v hl hr]) after
    · intro hr
      rw [parse_args_append hbefore]
      exact parse_args_value_threw hd
        (by simp [convert, hs, stoi_literal_out_of_range v hl hr]) after

/-- Witness of C15, amended: `-s abc` throws `std::invalid_argument`, and `-s 12abc`
is parsed as `-s 12`. -/
theorem gpt_params_parse_malformed_int_witness :
    gpt_params_parse sample_env ["main", "-i", "-s", "abc", "-h"] sample_params
      = .threw .invalid_argument ∧
    gpt_params_parse sample_env ["main", "-i", "-s", "12" ++ "abc", "-h"] sample_params
      = gpt_params_parse sample_env ["main", "-i", "-s", "12", "-h"] sample_params :=
  ⟨(gpt_params_parse_malformed_int sample_env "main" ["-i"] ["-h"] sample_params
      { default_threads sample_env sample_params with interactive := true } true "-s" "abc"
      (by decide) (by decide)).1 (by decide),
    ((gpt_params_parse_malformed_int sample_env "main" ["-i"] ["-h"] sample_params
      { default_threads sample_env sample_params with interactive := true } true "-s" "12"
      (by decide) (by decide)).2.2 "abc" (by decide) (by simp)).1⟩

/-- Counterexample to C15: the value `12abc` is not a well-formed integer, but
`std::stoi` converts its leading digits and ignores the rest: `-s 12abc` returns
`true` with the seed 12. -/
theorem gpt_params_parse_malformed_int_counterexample :
    is_decimal_literal "12abc" = false ∧
    gpt_params_parse sample_env ["main", "-s", "12abc"] sample_params
      = .returned true { default_threads sample_env sample_params with seed := 12 } :=
  ⟨by decide, by decide⟩

/-! ## The tokenize helper -/

/-- C11: when the underlying tokenizer, given the buffer of capacity 8096, reports
`k` tokens with `0 <= k < 8096`, `llama_tokenize` returns exactly `k` entries:
the first `k` entries of the buffer as the tokenizer left it, in the same order. -/
theorem llama_tokenize_prefix (ctx : Tokenizer) (text : String) (add_bos : Bool) (k : Nat)
    (hk : k < 8096)
    (hrun : (ctx.run text (List.replicate 8096 0) 8096 add_bos).2 = (k : Int)) :
    ∃ tokens, llama_tokenize ctx text add_bos = .ok tokens ∧ tokens.length = k ∧
      tokens = (ctx.run text (List.replicate 8096 0) 8096 add_bos).1.take k ∧
      ∀ i : Nat, i < k →
        tokens[i]? = (ctx.run text (List.replicate 8096 0) 8096 add_bos).1[i]? := by
  have hlen := ctx.same_size text (List.replicate 8096 0) 8096 add_bos
  rw [List.length_replicate] at hlen
  have hsz : to_size_t (k : Int) = k := by
    unfold to_size_t
    omega
  have hmax : ¬ vector_max_size < k := by
    unfold vector_max_size
    omega
  refine ⟨(ctx.run text (List.replicate 8096 0) 8096 add_bos).1.take k, ?_, ?_, rfl, ?_⟩
  · simp only [llama_tokenize, List.length_replicate, hrun, hsz, vector_resize, if_neg hmax,
      hlen]
    rw [if_pos (by omega)]
  · rw [List.length_take, hlen]
    omega
  · intro i hi
    rw [List.getElem?_take, if_pos hi]

/-- Witness of C11: the sample tokenizer reports 2 tokens. -/
theorem llama_tokenize_prefix_witness :
    ∃ tokens, llama_tokenize sample_tokenizer "Hello" true = .ok tokens ∧ tokens.length = 2 ∧
      tokens = (sample_tokenizer.run "Hello" (List.replicate 8096 0) 8096 true).1.take 2 ∧
      ∀ i : Nat, i < 2 →
        tokens[i]? = (sample_tokenizer.run "Hello" (List.replicate 8096 0) 8096 true).1[i]? :=
  llama_tokenize_prefix sample_tokenizer "Hello" true 2 (by decide) rfl

/-! ## The usage text -/

theorem occurs_in_append_left {s a : String} (b : String) (h : occurs_in s a) :
    occurs_in s (a ++ b) := by
  unfold occurs_in at *
  rw [String.data_append]
  exact h.trans (List.infix_append' [] a.data b.data)

theorem occurs_in_append_right {s b : String} (a : String) (h : occurs_in s b) :
    occurs_in s (a ++ b) := by
  unfold occurs_in at *
  rw [String.data_append]
  exact h.trans (List.suffix_append a.data b.data).isInfix

theorem occurs_in_boundary (s x a b s1 s2 : String) (hs : s = s1 ++ s2)
    (ha : s1.data <:+ a.data) (hb : s2.data <+: b.data) : occurs_in s ((x ++ a) ++ b) := by
  obtain ⟨u, hu⟩ := ha
  obtain ⟨w, hw⟩ := hb
  unfold occurs_in
  rw [hs, String.data_append, String.data_append, String.data_append, ← hu, ← hw]
  exact ⟨x.data ++ u, w, by simp [List.append_assoc]⟩

/-- Every spelling the parser compares with is documented in the usage text. -/
theorem usage_documents_recognized (env : Env) (argv0 : String) (params : gpt_params)
    (a : String) (h : recognized a = true) :
    documented a (gpt_print_usage env argv0 params) := by
  simp only [recognized, takes_value, value_flags, is_toggle, toggle_flags, is_help,
    help_flags, List.contains_cons, List.contains_nil, Bool.or_false, Bool.or_eq_true,
    beq_iff_eq] at h
  unfold gpt_print_usage documented
  rcases h with (((h | h | h | h | h | h | h | h | h | h | h | h | h | h | h | h | h | h |
    h | h | h | h | h | h) | (h | h | h | h | h | h | h | h | h | h)) | (h | h)) <;> subst h
  · refine ⟨by decide, "", by decide, Or.inl ?_⟩
    iterate 41 refine occurs_in_append_left _ ?_
    exact occurs_in_boundary _ _ _ _ "\n" "  -s " (by decide) (by decide) (by decide)
  · refine ⟨by decide, "-s SEED, ", by decide, Or.inl ?_⟩
    iterate 41 refine occurs_in_append_left _ ?_
    exact occurs_in_boundary _ _ _ _ "\n" "  -s SEED, --seed " (by decide) (by decide) (by decide)
  · refine ⟨by decide, "", by decide, Or.inl ?_⟩
    iterate 40 refine occurs_in_append_left _ ?_
    exact occurs_in_boundary _ _ _ _ "\n" "  -t " (by decide) (by decide) (by decide)
  · refine ⟨by decide, "-t N, ", by decide, Or.inl ?_⟩
    iterate 40 refine occurs_in_append_left _ ?_
    exact occurs_in_boundary _ _ _ _ "\n" "  -t N, --threads " (by decide) (by decide) (by decide)
  · refine ⟨by decide, "", by decide, Or.inl ?_⟩
    iterate 37 refine occurs_in_append_left _ ?_
    exact occurs_in_boundary _ _ _ _ "\n" "  -p " (by decide) (by decide) (by decide)
  · refine ⟨by decide, "-p PROMPT, ", by decide, Or.inl ?_⟩
    iterate 37 refine occurs_in_append_left _ ?_
    exact occurs_in_boundary _ _ _ _ "\n" "  -p PROMPT, --prompt " (by decide) (by decide) (by decide)
  · refine ⟨by decide, "", by decide, Or.inl ?_⟩
    iterate 34 refine occurs_in_append_left _ ?_
    exact occurs_in_boundary _ _ _ _ "\n" "  -f " (by decide) (by decide) (by decide)
  · refine ⟨by decide, "-f FNAME, ", by decide, Or.inl ?_⟩
    iterate 34 refine occurs_in_append_left _ ?_
    exact occurs_in_boundary _ _ _ _ "\n" "  -f FNAME, --file " (by decide) (by decide) (by decide)
  · refine ⟨by decide, "", by decide, Or.inl ?_⟩
    iterate 32 refine occurs_in_append_left _ ?_
    exact occurs_in_boundary _ _ _ _ "\n" "  -n " (by decide) (by decide) (by decide)
  · refine ⟨by decide, "-n N, ", by decide, Or.inl ?_⟩
    iterate 32 refine occurs_in_append_left _ ?_
    exact occurs_in_boundary _ _ _ _ "\n" "  -n N, --n_predict " (by decide) (by decide) (by decide)
  · refine ⟨by decide, "", by decide, Or.inl ?_⟩
    iterate 29 refine occurs_in_append_left _ ?_
    exact occurs_in_boundary _ _ _ _ "\n" "  --top_k " (by decide) (by decide) (by decide)
  · refine ⟨by decide, "", by decide, Or.inl ?_⟩
    iterate 17 refine occurs_in_append_left _ ?_
    exact occurs_in_boundary _ _ _ _ "\n" "  -c " (by decide) (by decide) (by decide)
  · refine ⟨by decide, "-c N, ", by decide, Or.inl ?_⟩
    iterate 17 refine occurs_in_append_left _ ?_
    exact occurs_in_boundary _ _ _ _ "\n" "  -c N, --ctx_size " (by decide) (by decide) (by decide)
  · refine ⟨by decide, "", by decide, Or.inl ?_⟩
    iterate 26 refine occurs_in_append_left _ ?_
    exact occurs_in_boundary _ _ _ _ "\n" "  --top_p " (by decide) (by decide) (by decide)
  · refine ⟨by decide, "", by decide, Or.inl ?_⟩
    iterate 12 refine occurs_in_append_left _ ?_
    exact occurs_in_boundary _ _ _ _ "\n" "  --temp " (by decide) (by decide) (by decide)
  · refine ⟨by decide, "", by decide, Or.inl ?_⟩
    iterate 23 refine occurs_in_append_left _ ?_
    exact occurs_in_boundary _ _ _ _ "\n" "  --repeat_last_n " (by decide) (by decide) (by decide)
  · refine ⟨by decide, "", by decide, Or.inl ?_⟩
    iterate 20 refine occurs_in_append_left _ ?_
    exact occurs_in_boundary _ _ _ _ "\n" "  --repeat_penalty " (by decide) (by decide) (by decide)
  · refine ⟨by decide, "", by decide, Or.inl ?_⟩
    iterate 8 refine occurs_in_append_left _ ?_
    exact occurs_in_boundary _ _ _ _ "\n" "  -b " (by decide) (by decide) (by decide)
  · refine ⟨by decide, "-b N, ", by decide, Or.inl ?_⟩
    iterate 8 refine occurs_in_append_left _ ?_
    exact occurs_in_boundary _ _ _ _ "\n" "  -b N, --batch_size " (by decide) (by decide) (by decide)
  · refine ⟨by decide, "", by decide, Or.inl ?_⟩
    iterate 4 refine occurs_in_append_left _ ?_
    exact occurs_in_boundary _ _ _ _ "\n" "  -m " (by decide) (by decide) (by decide)
  · refine ⟨by decide, "-m FNAME, ", by decide, Or.inl ?_⟩
    iterate 4 refine occurs_in_append_left _ ?_
    exact occurs_in_boundary _ _ _ _ "\n" "  -m FNAME, --model " (by decide) (by decide) (by decide)
  · refine ⟨by decide, "", by decide, Or.inl ?_⟩
    iterate 45 refine occurs_in_append_left _ ?_
    exact occurs_in_boundary _ _ _ _ "\n" "  -r " (by decide) (by decide) (by decide)
  · refine ⟨by decide, "-r PROMPT, ", by decide, Or.inl ?_⟩
    iterate 45 refine occurs_in_append_left _ ?_
    exact occurs_in_boundary _ _ _ _ "\n" "  -r PROMPT, --reverse-prompt " (by decide) (by decide) (by decide)
  · refine ⟨by decide, "", by decide, Or.inl ?_⟩
    iterate 9 refine occurs_in_append_left _ ?_
    exact occurs_in_boundary _ _ _ _ "\n" "  --n_parts " (by decide) (by decide) (by decide)
  · refine ⟨by decide, "", by decide, Or.inl ?_⟩
    iterate 13 refine occurs_in_append_left _ ?_
    exact occurs_in_boundary _ _ _ _ "\n" "  --memory_f16 " (by decide) (by decide) (by decide)
  · refine ⟨by decide, "", by decide, Or.inr ?_⟩
    iterate 48 refine occurs_in_append_left _ ?_
    exact occurs_in_boundary _ _ _ _ "\n" "  -i," (by decide) (by decide) (by decide)
  · refine ⟨by decide, "-i, ", by decide, Or.inl ?_⟩
    iterate 48 refine occurs_in_append_left _ ?_
    exact occurs_in_boundary _ _ _ _ "\n" "  -i, --interactive " (by decide) (by decide) (by decide)
  · refine ⟨by decide, "", by decide, Or.inl ?_⟩
    iterate 47 refine occurs_in_append_left _ ?_
    exact occurs_in_boundary _ _ _ _ "\n" "  --interactive-first " (by decide) (by decide) (by decide)
  · refine ⟨by decide, "", by decide, Or.inr ?_⟩
    iterate 46 refine occurs_in_append_left _ ?_
    exact occurs_in_boundary _ _ _ _ "\n" "  -ins," (by decide) (by decide) (by decide)
  · refine ⟨by decide, "-ins, ", by decide, Or.inl ?_⟩
    iterate 46 refine occurs_in_append_left _ ?_
    exact occurs_in_boundary _ _ _ _ "\n" "  -ins, --instruct " (by decide) (by decide) (by decide)
  · refine ⟨by decide, "", by decide, Or.inl ?_⟩
    iterate 42 refine occurs_in_append_left _ ?_
    exact occurs_in_boundary _ _ _ _ "\n" "  --color " (by decide) (by decide) (by decide)
  · refine ⟨by decide, "", by decide, Or.inl ?_⟩
    iterate 5 refine occurs_in_append_left _ ?_
    exact occurs_in_boundary _ _ _ _ "\n" "  --perplexity " (by decide) (by decide) (by decide)
  · refine ⟨by decide, "", by decide, Or.inl ?_⟩
    iterate 14 refine occurs_in_append_left _ ?_
    exact occurs_in_boundary _ _ _ _ "\n" "  --ignore-eos " (by decide) (by decide) (by decide)
  · refine ⟨by decide, "", by decide, Or.inl ?_⟩
    iterate 35 refine occurs_in_append_left _ ?_
    exact occurs_in_boundary _ _ _ _ "\n" "  --random-prompt " (by decide) (by decide) (by decide)
  · refine ⟨by decide, "", by decide, Or.inr ?_⟩
    iterate 49 refine occurs_in_append_left _ ?_
    exact occurs_in_boundary _ _ _ _ "\n" "  -h," (by decide) (by decide) (by decide)
  · refine ⟨by decide, "-h, ", by decide, Or.inl ?_⟩
    iterate 49 refine occurs_in_append_left _ ?_
    exact occurs_in_boundary _ _ _ _ "\n" "  -h, --help " (by decide) (by decide) (by decide)

theorem unknown_exit_ne_usage (a usage : String) :
    usage ≠ "error: unknown argument: " ++ a ++ "\n" ++ usage := by
  intro h
  have hd := congrArg String.data h
  simp only [String.data_append] at hd
  have hnil := List.self_eq_append_left.mp hd
  simp at hnil

/-- The parser handles every spelling of the list as a flag: it is not rejected as an
unknown argument. -/
theorem dispatch_recognized_not_unknown (env : Env) (argv0 : String) (params : gpt_params)
    (a : String) (h : recognized a = true) :
    dispatch env argv0 params a
      ≠ .exit ("error: unknown argument: " ++ a ++ "\n" ++ gpt_print_usage env argv0 params) 0 := by
  intro hex
  by_cases hv : takes_value a = true
  · obtain ⟨k, hk⟩ := dispatch_of_takes_value env argv0 params a hv
    rw [hk] at hex
    cases hex
  · have hv2 : takes_value a = false := by simpa using hv
    by_cases hh : is_help a = true
    · rw [dispatch_of_is_help env argv0 params a hh] at hex
      simp only [Action.exit.injEq, and_true] at hex
      exact unknown_exit_ne_usage a _ hex
    · have ht : is_toggle a = true := by
        simp only [recognized, hv2, Bool.false_or, Bool.or_eq_true] at h
        rcases h with h | h
        · exact h
        · exact absurd h hh
      obtain ⟨q, hq⟩ := dispatch_of_is_toggle env argv0 params a ht
      rw [hq] at hex
      cases hex

theorem mem_all_spellings (a : String) : a ∈ all_spellings ↔ recognized a = true := by
  simp [all_spellings, recognized, takes_value, is_toggle, is_help, or_assoc]

/-- C20: the spellings `gpt_params_parse` accepts, that is, does not reject as an
unknown argument, are exactly the 36 spellings of the list (24 flags, 12 of
which have a short and a long spelling, no spelling twice), and each of them is
documented in the usage text of `gpt_print_usage`, for every record: it stands
in the name column of a line of the option list. So every argument is either
rejected as unknown or documented: the parser accepts no undocumented flag. -/
theorem gpt_print_usage_documents (env : Env) (argv0 : String) (params : gpt_params) :
    (∀ a : String,
      dispatch env argv0 params a
          = .exit ("error: unknown argument: " ++ a ++ "\n"
              ++ gpt_print_usage env argv0 params) 0 ∨
        documented a (gpt_print_usage env argv0 params)) ∧
    (∀ a : String,
      dispatch env argv0 params a
          ≠ .exit ("error: unknown argument: " ++ a ++ "\n"
              ++ gpt_print_usage env argv0 params) 0 ↔
        a ∈ all_spellings) ∧
    (∀ a ∈ all_spellings, documented a (gpt_print_usage env argv0 params)) ∧
    all_spellings.length = 36 ∧ all_spellings.Nodup ∧ spelling_pairs.length = 12 ∧
    (∀ pr ∈ spelling_pairs, pr.1 ∈ all_spellings ∧ pr.2 ∈ all_spellings) := by
  refine ⟨?_, ?_, ?_, by decide, by decide, by decide, by decide⟩
  · intro a
    by_cases hr : recognized a = true
    · exact .inr (usage_documents_recognized env argv0 params a hr)
    · exact .inl (dispatch_of_not_recognized env argv0 params a (by simpa using hr))
  · intro a
    rw [mem_all_spellings]
    constructor
    · intro hne
      by_contra hr
      exact hne (dispatch_of_not_recognized env argv0 params a (by simpa using hr))
    · intro hr
      exact dispatch_recognized_not_unknown env argv0 params a hr
  · intro a ha
    exact usage_documents_recognized env argv0 params a ((mem_all_spellings a).mp ha)

/-- Witness of C20: the spelling `--ctx_size` is documented. -/
theorem gpt_print_usage_documents_witness :
    documented "--ctx_size" (gpt_print_usage sample_env "main" sample_params) :=
  (gpt_print_usage_documents sample_env "main" sample_params).2.2.1 "--ctx_size" (by decide)

/-! ## The default branch of the random prompt -/

/-- C16: for every state of the generator, `gpt_random_prompt` returns one of the
ten strings of the table and never `To`: the default branch is not reached. -/
theorem gpt_random_prompt_never_default {σ : Type} (rng : Generator σ) (s : σ) :
    (gpt_random_prompt rng s).1 ∈ prompt_table ∧ (gpt_random_prompt rng s).1 ≠ "To" := by
  have hlt : (rng.draw s).1 % 10 < 10 := Nat.mod_lt _ (by decide)
  simp only [gpt_random_prompt]
  rw [Int.ofNat_eq_coe, to_int32_of_lt _ (by omega)]
  generalize (rng.draw s).1 % 10 = r at hlt
  interval_cases r <;> exact ⟨by decide, by decide⟩

/-! ## The flag `--interactive-first` -/

/-- Counterexample to C17: from a record with `interactive` false, `--interactive-first`
returns with `interactive_start` set and `interactive` still false. -/
theorem gpt_params_parse_interactive_first_counterexample :
    "--interactive-first" ∈ flag_args ["--interactive-first"] ∧
    sample_params.interactive = false ∧
    gpt_params_parse sample_env ["main", "--interactive-first"] sample_params
      = .returned true
          { default_threads sample_env sample_params with interactive_start := true } ∧
    ({ default_threads sample_env sample_params with interactive_start := true }
      : gpt_params).interactive = false :=
  ⟨by decide, rfl, by decide, rfl⟩

/-- C17, amended: after a successful parse of arguments with `--interactive-first` at
a flag position, `interactive_start` is true; the flag does not write
`interactive`, which is true after the parse exactly when it was true before
or `-i`/`--interactive` stands at a flag position. -/
theorem gpt_params_parse_interactive_first (env : Env) (argv : List String)
    (params q : gpt_params) (b : Bool)
    (h : gpt_params_parse env argv params = .returned b q)
    (hf : "--interactive-first" ∈ flag_args argv.tail) :
    q.interactive_start = true ∧
    (q.interactive = true ↔
      params.interactive = true ∨ "-i" ∈ flag_args argv.tail ∨
        "--interactive" ∈ flag_args argv.tail) := by
  have hrun := run_parse_args env (argv.headD "") argv.tail (default_threads env params)
  have key := run_toggles hrun b q h
  have hpres : bools_preserved params q :=
    bools_preserved_trans (default_threads_bools env params)
      (run_bools_preserved hrun q (by rw [show parse_args env (argv.headD "") argv.tail
        (default_threads env params) = .returned b q from h]; rfl))
  refine ⟨by simpa [toggle_field] using key _ hf, ?_, ?_⟩
  · intro hq
    by_cases hi : "-i" ∈ flag_args argv.tail
    · exact .inr (.inl hi)
    · by_cases hi2 : "--interactive" ∈ flag_args argv.tail
      · exact .inr (.inr hi2)
      · left
        have hkeep : q.interactive = params.interactive :=
          parse_keeps (fun p => p.interactive) ["-i", "--interactive"]
            (by intro env p a v q h _; cases h <;> rfl)
            (by intro p a q h hS; cases h <;> first | rfl | (simp at hS; tauto))
            (by intro env p; rw [default_threads_frame])
            env argv params q b h
            (by
              intro x hx
              simp only [List.mem_cons, List.mem_singleton, List.not_mem_nil,
                or_false] at hx
              rcases hx with rfl | rfl
              · exact hi
              · exact hi2)
        rw [← hkeep]
        exact hq
  · rintro (hp | hi | hi)
    · exact hpres.2.2.2.1 hp
    · simpa [toggle_field] using key _ hi
    · simpa [toggle_field] using key _ hi

/-- Witness of C17, amended: `--interactive-first` alone sets `interactive_start` and
leaves `interactive` as it was. -/
theorem gpt_params_parse_interactive_first_witness :
    ({ default_threads sample_env sample_params with interactive_start := true }
      : gpt_params).interactive_start = true ∧
    (({ default_threads sample_env sample_params with interactive_start := true }
        : gpt_params).interactive = true ↔
      sample_params.interactive = true ∨ "-i" ∈ flag_args ["main", "--interactive-first"].tail ∨
        "--interactive" ∈ flag_args ["main", "--interactive-first"].tail) :=
  gpt_params_parse_interactive_first sample_env ["main", "--interactive-first"] sample_params
    { default_threads sample_env sample_params with interactive_start := true } true
    (by decide) (by decide)

end LlamaUtils
